import Mathlib

/-!
# Codezero: pager file cache (`tasks/mm0/src/file.c`) and kernel address spaces
(`src/generic/space.c`)

A shallow embedding of the two C files.  Intrusive circular lists become Lean
lists (head entry first), pointers to heap objects become indices, `BUG()` /
`BUG_ON()` become the `fatal` outcome, and an access outside the object a
pointer designates becomes the `wild` outcome.
-/

namespace Codezero

/-! ## Outcomes of a call -/

/-- Result of running a C function on a state of type `σ`: it returns a value
together with the state it leaves behind (`ret`), it stops in `BUG()` /
`BUG_ON()` with the state reached so far (`fatal`), or it reaches, in the state
given, an access outside the object a pointer designates, such as a null
pointer or an index outside an array (`wild`). -/
inductive Outcome (σ α : Type) where
  | ret (s : σ) (a : α)
  | fatal (s : σ)
  | wild (s : σ)
  deriving DecidableEq, Repr

/-! ## Constants of the headers -/

/-- Modelled from the spec: `PAGE_SIZE` is defined in the architecture headers,
which are not part of the sources; the scenarios ("8192 bytes (two pages)")
fix it to 4096. -/
def PAGE_SIZE : Nat := 4096

/-- Width of `unsigned long` on the 32-bit ARM target: arithmetic on cursors,
lengths and addresses is taken modulo this. -/
def WORD : Nat := 2 ^ 32

/-- Macro `__pfn(x)`: the page frame number of a byte address. -/
def __pfn (x : Nat) : Nat := x / PAGE_SIZE

/-- Macro `page_align(x)`: round down to a page boundary. -/
def page_align (x : Nat) : Nat := x / PAGE_SIZE * PAGE_SIZE

/-- Macro `page_align_up(x)`: round up to a page boundary (in `unsigned long`). -/
def page_align_up (x : Nat) : Nat := (x + (PAGE_SIZE - 1)) % WORD / PAGE_SIZE * PAGE_SIZE

/-- Errno values of `l4/api/errno.h` (the usual ones). -/
def EPERM : Int := 1
/-- Errno `EBADF`. -/
def EBADF : Int := 9
/-- Errno `ENOMEM`. -/
def ENOMEM : Int := 12
/-- Errno `EFAULT`. -/
def EFAULT : Int := 14
/-- Errno `EINVAL`. -/
def EINVAL : Int := 22

/-! ## Data model of the pager (`vm_area.h`, `file.h`, `task.h`) -/

/-- A `struct page`: the fields `file.c` reads or writes.  `phys` is the frame
the structure describes (`phys_to_page` / `page_to_phys`), `owner` the address
of the object owning it. -/
structure page where
  phys : Nat
  offset : Nat
  refcnt : Nat
  owner : Option Nat
  virt : Nat
  deriving DecidableEq, Repr

/-- A `struct vm_object`: `page_cache` is the intrusive list of resident pages,
in list order starting at the entry after the list head. -/
structure vm_object where
  page_cache : List page
  npages : Nat
  refcnt : Nat
  pager : Option Nat
  deriving DecidableEq, Repr

/-- A `struct vm_file`; `vnum` is what `vm_file_to_vnum` designates. -/
structure vm_file where
  type : Nat
  vnum : Nat
  length : Nat
  vm_obj : vm_object
  deriving DecidableEq, Repr

/-! ## Intrusive list primitives (`list.h`)

An entry of a list is designated by the entries in front of it (`pre`), the
entry itself (`node`) and the entries behind it (`post`). -/

/-- The call `list_add_tail(new, &node->list)`: link `new` between `node->prev`
and `node`, that is immediately in front of `node`. -/
def list_add_tail_node {α : Type} (new : α) (pre : List α) (node : α) (post : List α) : List α :=
  pre ++ new :: node :: post

/-- The call `list_add(new, &node->list)`: link `new` between `node` and
`node->next`, that is immediately behind `node`. -/
def list_add_node {α : Type} (new : α) (pre : List α) (node : α) (post : List α) : List α :=
  pre ++ node :: new :: post

/-- The call `list_add_tail(new, &head)` on the list head: `new` becomes the last entry. -/
def list_add_tail_head {α : Type} (new : α) (l : List α) : List α := l ++ [new]

/-- The call `list_add(new, &head)` on the list head: `new` becomes the first entry. -/
def list_add_head {α : Type} (new : α) (l : List α) : List α := new :: l

/-! ## `insert_page_olist` -/

/-- The `list_for_each_entry(before, &vmo->page_cache, list)` loop of
`insert_page_olist`, entered with the entries `pre` already passed and the
entries of the third argument still to visit.  Running off the end of the list
reaches the trailing `BUG()`. -/
def insert_page_scan (this : page) : List page → List page → Option (List page)
  | _, [] => none
  | pre, [before] =>
      if this.offset > before.offset then
        some (list_add_tail_node this pre before [])
      else if this.offset < before.offset then
        some (list_add_node this pre before [])
      else none
  | pre, before :: after :: rest =>
      if before.offset < this.offset ∧ after.offset > this.offset then
        some (list_add_tail_node this pre before (after :: rest))
      else if this.offset = before.offset then none
      else if this.offset = after.offset then none
      else insert_page_scan this (pre ++ [before]) (after :: rest)

/-- Function `insert_page_olist(this, vmo)`. -/
def insert_page_olist (this : page) (vmo : vm_object) : Outcome vm_object Int :=
  if vmo.page_cache = [] then
    .ret { vmo with page_cache := list_add_tail_head this vmo.page_cache } 0
  else
    match insert_page_scan this [] vmo.page_cache with
    | some l => .ret { vmo with page_cache := l } 0
    | none => .fatal vmo

/-- Offsets of the cached pages in list order: what iterating the cache yields. -/
def cache_offsets (vmo : vm_object) : List Nat := vmo.page_cache.map page.offset

/-- Strictly ascending: every entry is below all entries behind it. -/
def strictly_ascending (l : List Nat) : Prop := l.Pairwise (fun a b => a < b)

instance (l : List Nat) : Decidable (strictly_ascending l) := by
  unfold strictly_ascending; infer_instance

/-! ## Descriptor tables and the pager state -/

/-- Number of slots of a task's descriptor table (`struct file_descriptor
fd[TASK_FILES_MAX]`).  The header defining it is not part of the sources; no
statement below depends on the value chosen. -/
def TASK_FILES_MAX : Nat := 32

/-- Thread id of the filesystem service; defined in a header that is not part
of the sources. -/
def VFS_TID : Int := 2

/-- Type bit of a file served by the filesystem service; defined in a header
that is not part of the sources. -/
def VM_FILE_VFS : Nat := 2

/-- Values of `whence` accepted by `sys_lseek`. -/
def SEEK_SET : Int := 0
/-- Value `SEEK_CUR`. -/
def SEEK_CUR : Int := 1
/-- Value `SEEK_END`. -/
def SEEK_END : Int := 2

/-- A `struct file_descriptor`: `vmfile` is the pointer to the bound file
object (an index into `State.files`), `none` being the null pointer. -/
structure file_descriptor where
  vnum : Nat
  cursor : Nat
  vmfile : Option Nat
  deriving DecidableEq, Repr

/-- A task control block of the pager: its id and its descriptor table. -/
structure tcb where
  tid : Int
  fd : List file_descriptor
  deriving DecidableEq, Repr

/-- The two list nodes of a `struct vm_file` that `file.c` names: the member
`list` of the file itself and the member `list` of the object embedded in it,
`vm_obj.list`. -/
inductive vm_file_member where
  | list
  | vm_obj_list
  deriving DecidableEq, Repr

/-- A node linked into `vm_file_list`: the file object it is part of (an index
into `State.files`) and the member of that object it is. -/
structure file_link where
  file : Nat
  member : vm_file_member
  deriving DecidableEq, Repr

/-- State of the pager as far as `file.c` touches it: the tasks, the file
objects in memory (a pointer to one is its index), the global `vm_file_list`
(the nodes linked into it, first entry first) and the page offsets for which a
`page_in` operation has been invoked so far, oldest first. -/
structure State where
  tasks : List tcb
  files : List vm_file
  vm_file_list : List file_link
  pagein_calls : List Nat
  deriving DecidableEq, Repr

/-- The declaration of `struct vm_file` is not part of the sources, so the
distance between its members `list` and `vm_obj.list` is not known.  When
`list_for_each_entry(vmfile, &vm_file_list, list)` reaches a node that is the
member `vm_obj.list` of the file object `fa`, its `container_of` yields the
address of that object displaced by this distance, which is the address of no
file object.  A `StrayRead` tells, for a state and such an `fa`, what
`vmfile->type` and `vm_file_to_vnum(vmfile)` read through the displaced
pointer: `none` when a read fails, the two values read otherwise. -/
abbrev StrayRead : Type := State → Nat → Option (Nat × Nat)

/-- Modelled from the spec: `find_task` is not part of the sources ("resolves
the opener to a task (failing with not-found otherwise)"): the position of the
first task with the given id, or `none` for the null pointer. -/
def find_task : List tcb → Int → Option Nat
  | [], _ => none
  | t :: ts, tid => if t.tid = tid then some 0 else (find_task ts tid).map (fun i => i + 1)

/-- The entry `t->fd[fd]` of a descriptor table, `none` when the index lies
outside the table. -/
def fd_slot (t : tcb) (fd : Int) : Option file_descriptor :=
  if fd < 0 then none else t.fd[fd.toNat]?

/-- Store `d` into `t->fd[fd]` of task number `ti` (the index is inside the table). -/
def set_fd (s : State) (ti : Nat) (fd : Int) (d : file_descriptor) : State :=
  { s with tasks := s.tasks.modify (fun t => { t with fd := t.fd.set fd.toNat d }) ti }

/-- Store `f` at the file pointer `fa`. -/
def set_file (s : State) (fa : Nat) (f : vm_file) : State :=
  { s with files := s.files.set fa f }

/-- What a system call of the pager hands back: the value of its `return`
statement and the value it passed to `l4_ipc_return`, if it called it. -/
structure Reply where
  ret : Int
  ipc : Option Int
  deriving DecidableEq, Repr

/-! ## `read_file_pages` -/

/-- What a `page_in` operation hands back: the page, the object then being as
given, or an error pointer.  `IS_ERR` holds of negative codes only, so the
code carried by `error e` is `-(e + 1)`. -/
inductive PageIn where
  | page (vmo : vm_object)
  | error (e : Nat)
  deriving DecidableEq, Repr

/-- The `for` loop of `read_file_pages` with `todo` iterations left before
`f_offset` reaches `pfn_end`.  Yields the object, the offsets for which
`page_in` was invoked (oldest first, appended to `log`) and the return value. -/
def read_file_pages_loop (page_in : vm_object → Nat → PageIn) :
    Nat → Nat → vm_object → List Nat → vm_object × List Nat × Int
  | 0, _, vmo, log => (vmo, log, 0)
  | todo + 1, f_offset, vmo, log =>
      match page_in vmo f_offset with
      | .error e => (vmo, log ++ [f_offset], Int.negSucc e)
      | .page vmo' => read_file_pages_loop page_in todo (f_offset + 1) vmo' (log ++ [f_offset])

/-- Function `read_file_pages(vmfile, pfn_start, pfn_end)` on the object of the file. -/
def read_file_pages (page_in : vm_object → Nat → PageIn) (vmo : vm_object)
    (pfn_start pfn_end : Nat) : vm_object × List Nat × Int :=
  read_file_pages_loop page_in (pfn_end - pfn_start) pfn_start vmo []

/-! ## `read_cache_pages` -/

/-- One `memcpy(buf + dst, page_virtual + src, len)` of `read_cache_pages`,
where `page_virtual` is the one-page mapping of `page`. -/
structure Copy where
  dst : Nat
  page : page
  src : Nat
  len : Nat
  deriving DecidableEq, Repr

/-- The first loop of `read_cache_pages`: the first entry whose offset is
`pfn_start`, with the entries behind it. -/
def find_head (pfn_start : Nat) : List page → Option (page × List page)
  | [] => none
  | p :: rest => if p.offset = pfn_start then some (p, rest) else find_head pfn_start rest

/-- The loop `list_for_each_entry(this, &head->list, list)` of
`read_cache_pages` over the entries behind `head`, with `left` bytes to go.
Behind the last entry the iteration reaches the list head of the cache, which
is not a page: its `offset` is read only when `left` is not 0.  Yields `left`. -/
def read_cache_walk (pfn_end count : Nat) :
    List page → Nat → Nat → List Copy → Outcome (List Copy) Nat
  | [], left, _, cs => if left = 0 then .ret cs left else .wild cs
  | this :: rest, left, last_offset, cs =>
      if left = 0 ∨ this.offset = pfn_end then .ret cs left
      else if this.offset ≠ (last_offset + 1) % WORD then .fatal cs
      else
        let copysize := if left < PAGE_SIZE then left else PAGE_SIZE
        read_cache_walk pfn_end count rest (left - copysize) this.offset
          (cs ++ [{ dst := count - left, page := this, src := 0, len := copysize }])

/-- Function `read_cache_pages(vmfile, buf, pfn_start, pfn_end, offset, count)`
for a count that is not negative.  The state is the list of `memcpy` calls made
into `buf`, oldest first. -/
def read_cache_pages (vmo : vm_object) (pfn_start pfn_end offset count : Nat) :
    Outcome (List Copy) Int :=
  match find_head pfn_start vmo.page_cache with
  | none => .ret [] 0
  | some (head, rest) =>
      let left := count
      let copysize := if left < PAGE_SIZE then left else PAGE_SIZE
      match read_cache_walk pfn_end count rest (left - copysize) head.offset
          [{ dst := 0, page := head, src := offset, len := copysize }] with
      | .ret cs left' => if left' ≠ 0 then .fatal cs else .ret cs ((count : Int) - left')
      | .fatal cs => .fatal cs
      | .wild cs => .wild cs

/-- A `memcpy` of `read_cache_pages` stays inside the page it maps. -/
def Copy.in_page (c : Copy) : Prop := c.src + c.len ≤ PAGE_SIZE

instance (c : Copy) : Decidable c.in_page := by
  unfold Copy.in_page; infer_instance

/-- The cached page and the byte inside its mapping that end up at `buf[i]`
after the given `memcpy` calls (a later call overwrites an earlier one). -/
def buf_source : List Copy → Nat → Option (Nat × Nat)
  | [], _ => none
  | c :: cs, i =>
      match buf_source cs i with
      | some r => some r
      | none => if c.dst ≤ i ∧ i < c.dst + c.len then some (c.page.offset, c.src + (i - c.dst)) else none

/-! ## `sys_read` -/

/-- The task `ti`, its descriptor `t->fd[fd]`, the file pointer stored there and
the file it designates; `none` when one of the accesses leaves the descriptor
table or follows a pointer that designates no file object. -/
def bound_file (s : State) (ti : Nat) (fd : Int) : Option (file_descriptor × Nat × vm_file) :=
  match s.tasks[ti]? with
  | none => none
  | some t =>
      match fd_slot t fd with
      | none => none
      | some d =>
          match d.vmfile with
          | none => none
          | some fa =>
              match s.files[fa]? with
              | none => none
              | some f => some (d, fa, f)

/-- The page range `[pfn_start, pfn_end)` that `sys_read` computes from the
cursor, the count and the tracked length. -/
def sys_read_range (cursor count length : Nat) : Nat × Nat :=
  let pfn_start := __pfn cursor
  let pfn_end := __pfn (page_align_up ((cursor + count) % WORD))
  let pfn_end := if __pfn length < pfn_end then __pfn length else pfn_end
  (pfn_start, pfn_end)

/-- Function `sys_read(sender, fd, buf, count)` for a count that is not
negative; besides the reply it yields the `memcpy` calls made into `buf`. -/
def sys_read (page_in : vm_object → Nat → PageIn) (s : State) (sender fd : Int) (count : Nat) :
    Outcome State (Reply × List Copy) :=
  match find_task s.tasks sender with
  | none => .fatal s
  | some ti =>
      if fd < 0 ∨ fd > TASK_FILES_MAX then
        .ret s ({ ret := 0, ipc := some (-EBADF) }, [])
      else
        match bound_file s ti fd with
        | none => .wild s
        | some (d, fa, vmfile) =>
            let cursor := d.cursor
            let (pfn_start, pfn_end) := sys_read_range cursor count vmfile.length
            let (vmo, log, err) := read_file_pages page_in vmfile.vm_obj pfn_start pfn_end
            let s1 := { set_file s fa { vmfile with vm_obj := vmo } with
                        pagein_calls := s.pagein_calls ++ log }
            if err < 0 then
              .ret s1 ({ ret := 0, ipc := some err }, [])
            else
              let byte_offset := cursor % PAGE_SIZE
              match read_cache_pages vmo pfn_start pfn_end byte_offset count with
              | .fatal _ => .fatal s1
              | .wild _ => .wild s1
              | .ret cs cnt =>
                  if cnt < 0 then
                    .ret s1 ({ ret := 0, ipc := some cnt }, cs)
                  else
                    .ret (set_fd s1 ti fd { d with cursor := (cursor + cnt.toNat) % WORD })
                      ({ ret := cnt, ipc := none }, cs)

/-! ## `new_file_pages`, `write_cache_pages`, `sys_write` -/

/-- Modelled from the spec: `page_init` is not part of the sources; the page
structure of a frame starts out unreferenced, unowned and unlinked
("initializing each with reference count one" once `refcnt++` has run). -/
def page_init (phys : Nat) : page :=
  { phys := phys, offset := 0, refcnt := 0, owner := none, virt := 0 }

/-- The `for` loop of `new_file_pages` with `todo` iterations left; `fa` is the
pointer to the file, `paddr` the memory `alloc_page` handed out.  The page was
just initialised, so `BUG_ON(!list_empty(&page->list))` does not fire. -/
def new_file_pages_loop (fa paddr start : Nat) : Nat → Nat → vm_object → Outcome vm_object Unit
  | 0, _, vmo => .ret vmo ()
  | todo + 1, i, vmo =>
      let page := page_init (paddr + PAGE_SIZE * i)
      let page := { page with refcnt := page.refcnt + 1 }
      let page := { page with owner := some fa }
      let page := { page with offset := (start + i) % WORD }
      let page := { page with virt := 0 }
      match insert_page_olist page vmo with
      | .ret vmo' _ => new_file_pages_loop fa paddr start todo (i + 1) vmo'
      | .fatal vmo' => .fatal vmo'
      | .wild vmo' => .wild vmo'

/-- Function `new_file_pages(f, start, end)`; `alloc_page` is the page
allocator, which yields the address of the memory or `none` for null. -/
def new_file_pages (alloc_page : Nat → Option Nat) (fa : Nat) (f : vm_file) (start end_ : Nat) :
    Outcome vm_file Int :=
  let npages := (end_ + WORD - start) % WORD
  match alloc_page npages with
  | none => .ret f (-ENOMEM)
  | some paddr =>
      match new_file_pages_loop fa paddr start npages 0 f.vm_obj with
      | .ret vmo _ => .ret { f with vm_obj := { vmo with npages := vmo.npages + npages } } 0
      | .fatal vmo => .fatal { f with vm_obj := vmo }
      | .wild vmo => .wild { f with vm_obj := vmo }

/-- Function `write_cache_pages`: its body is `BUG()`. -/
def write_cache_pages (s : State) (_fa _pfn_start _pfn_end _cur_pgoff _count : Nat) :
    Outcome State Int :=
  .fatal s

/-- The page ranges `sys_write` computes from the cursor, the count and the
tracked length: `((pfn_wstart, pfn_wend), (pfn_fstart, pfn_fend), (pfn_nstart, pfn_nend))`. -/
def sys_write_ranges (cursor count length : Nat) : (Nat × Nat) × (Nat × Nat) × (Nat × Nat) :=
  let pfn_wstart := __pfn cursor
  let pfn_wend := __pfn (page_align_up ((cursor + count) % WORD))
  let pfn_fend := __pfn (page_align_up length)
  if pfn_wstart < pfn_fend then
    if pfn_wend < pfn_fend then
      ((pfn_wstart, pfn_wend), (pfn_wstart, pfn_wend), (0, 0))
    else
      ((pfn_wstart, pfn_wend), (pfn_wstart, pfn_fend), (pfn_fend, pfn_wend))
  else
    ((pfn_wstart, pfn_wend), (0, 0), (pfn_wstart, pfn_wend))

/-- Function `sys_write(sender, fd, buf, count)` for a count that is not negative. -/
def sys_write (page_in : vm_object → Nat → PageIn) (alloc_page : Nat → Option Nat)
    (s : State) (sender fd : Int) (count : Nat) : Outcome State Reply :=
  match find_task s.tasks sender with
  | none => .fatal s
  | some ti =>
      if fd < 0 ∨ fd > TASK_FILES_MAX then
        .ret s { ret := 0, ipc := some (-EBADF) }
      else
        match bound_file s ti fd with
        | none => .wild s
        | some (d, fa, vmfile) =>
            let cursor := d.cursor
            let ((pfn_wstart, pfn_wend), (pfn_fstart, pfn_fend), (pfn_nstart, pfn_nend)) :=
              sys_write_ranges cursor count vmfile.length
            let (vmo, log, err) := read_file_pages page_in vmfile.vm_obj pfn_fstart pfn_fend
            let vmfile1 := { vmfile with vm_obj := vmo }
            let s1 := { set_file s fa vmfile1 with pagein_calls := s.pagein_calls ++ log }
            if err < 0 then
              .ret s1 { ret := 0, ipc := some err }
            else
              match new_file_pages alloc_page fa vmfile1 pfn_nstart pfn_nend with
              | .fatal f => .fatal (set_file s1 fa f)
              | .wild f => .wild (set_file s1 fa f)
              | .ret vmfile2 err =>
                  let s2 := set_file s1 fa vmfile2
                  if err < 0 then
                    .ret s2 { ret := 0, ipc := some err }
                  else
                    let byte_offset := cursor % PAGE_SIZE
                    match write_cache_pages s2 fa pfn_wstart pfn_wend byte_offset count with
                    | .fatal s3 => .fatal s3
                    | .wild s3 => .wild s3
                    | .ret s3 err =>
                        if err < 0 then
                          .ret s3 { ret := 0, ipc := some err }
                        else
                          match s3.files[fa]? with
                          | none => .wild s3
                          | some vmfile3 =>
                              .ret (set_file s3 fa
                                  { vmfile3 with length := (vmfile3.length + count) % WORD })
                                { ret := 0, ipc := none }

/-! ## `sys_lseek` -/

/-- Function `sys_lseek(sender, fd, offset, whence)`. -/
def sys_lseek (s : State) (sender fd offset whence : Int) : Outcome State Int :=
  match find_task s.tasks sender with
  | none => .fatal s
  | some ti =>
      if offset < 0 then .ret s (-EINVAL)
      else if whence = SEEK_SET then
        match (s.tasks[ti]?).bind (fun t => fd_slot t fd) with
        | none => .wild s
        | some d => .ret (set_fd s ti fd { d with cursor := offset.toNat % WORD }) 0
      else if whence = SEEK_CUR then
        match (s.tasks[ti]?).bind (fun t => fd_slot t fd) with
        | none => .wild s
        | some d => .ret (set_fd s ti fd { d with cursor := (d.cursor + offset.toNat) % WORD }) 0
      else if whence = SEEK_END then
        match bound_file s ti fd with
        | none => .wild s
        | some (d, _, vmfile) =>
            .ret (set_fd s ti fd { d with cursor := (vmfile.length + offset.toNat) % WORD }) 0
      else .ret s (-EINVAL)

/-! ## `vfs_receive_sys_open` -/

/-- Address of the operation set `file_pager`. -/
def file_pager : Nat := 0

/-- Modelled from the spec: `vfs_file_create` is not part of the sources
("creates a new File-backed Memory Object (empty cache, ...)"): a file object
of the filesystem-service type with an empty cache, no page and no reference,
or the error pointer for `-ENOMEM` when memory is exhausted. -/
def vfs_file_create (mem_ok : Bool) : Except Nat vm_file :=
  if mem_ok then
    .ok { type := VM_FILE_VFS, vnum := 0, length := 0,
          vm_obj := { page_cache := [], npages := 0, refcnt := 0, pager := none } }
  else .error 11

/-- The loop `list_for_each_entry(vmfile, &vm_file_list, list)` of
`vfs_receive_sys_open` with its test `(vmfile->type & VM_FILE_VFS) &&
vm_file_to_vnum(vmfile) == vnum`, over the nodes of the list, first entry first.
A node that is the member `list` of a file object gives that object; a node
that is the member `vm_obj.list` gives a displaced pointer, through which the
test reads what `stray` tells.  The result is `some (some fa)` when the test
holds at the file object `fa` and `some none` when the list is exhausted.  It
is `none` when the walk leaves the file objects: a node is part of no object, a
read through a displaced pointer fails, or the test holds at a displaced
pointer, through which the body of the loop then writes
`vmfile->vm_obj.refcnt++`. -/
def vfs_open_lookup (stray : StrayRead) (s : State) (vnum : Nat) :
    List file_link → Option (Option Nat)
  | [] => some none
  | l :: rest =>
      match l.member with
      | .list =>
          match s.files[l.file]? with
          | none => none
          | some vmfile =>
              if vmfile.type &&& VM_FILE_VFS ≠ 0 ∧ vmfile.vnum = vnum then some (some l.file)
              else vfs_open_lookup stray s vnum rest
      | .vm_obj_list =>
          match stray s l.file with
          | none => none
          | some (type, v) =>
              if type &&& VM_FILE_VFS ≠ 0 ∧ v = vnum then none
              else vfs_open_lookup stray s vnum rest

/-- Function `vfs_receive_sys_open(sender, opener, fd, vnum, length)`;
`mem_ok` tells whether `vfs_file_create` finds memory, `stray` what the loop
reads at a node linked through `vm_obj.list`.  The new object is linked with
`list_add(&vmfile->vm_obj.list, &vm_file_list)`; when the walk leaves the file
objects the outcome is `wild` in the state the loop started in.  The reference
count of an object is a 32-bit counter, which wraps. -/
def vfs_receive_sys_open (stray : StrayRead) (mem_ok : Bool) (s : State)
    (sender opener fd : Int) (vnum length : Nat) : Outcome State Int :=
  if sender ≠ VFS_TID then .ret s (-EPERM)
  else
    match find_task s.tasks opener with
    | none => .ret s (-EINVAL)
    | some ti =>
        if fd < 0 ∨ fd > TASK_FILES_MAX then .ret s (-EINVAL)
        else
          match (s.tasks[ti]?).bind (fun t => fd_slot t fd) with
          | none => .wild s
          | some d =>
              let d1 := { d with vnum := vnum }
              let d2 := { d1 with cursor := 0 }
              let s1 := set_fd s ti fd d2
              match vfs_open_lookup stray s1 vnum s1.vm_file_list with
              | none => .wild s1
              | some (some fa) =>
                  match s1.files[fa]? with
                  | none => .wild s1
                  | some vmfile =>
                      let s2 := set_fd s1 ti fd { d2 with vmfile := some fa }
                      .ret (set_file s2 fa
                          { vmfile with vm_obj := { vmfile.vm_obj with
                              refcnt := (vmfile.vm_obj.refcnt + 1) % WORD } }) 0
              | some none =>
                  match vfs_file_create mem_ok with
                  | .error e => .ret s1 (Int.negSucc e)
                  | .ok vmfile =>
                      let fa := s1.files.length
                      let vmfile := { vmfile with vnum := vnum }
                      let vmfile := { vmfile with length := length }
                      let vmfile := { vmfile with vm_obj := { vmfile.vm_obj with pager := some file_pager } }
                      .ret { s1 with files := s1.files ++ [vmfile],
                                     vm_file_list := list_add_head
                                       { file := fa, member := .vm_obj_list } s1.vm_file_list } 0

/-- A page structure with the given offset, as `new_file_pages` sets one up for
the frame `phys` and the owner `owner`. -/
def mk_page (phys : Nat) (owner : Option Nat) (offset : Nat) : page :=
  { phys := phys, offset := offset, refcnt := 1, owner := owner, virt := 0 }

/-- An object caching pages with the given offsets, in this list order. -/
def vmo_of_offsets (offs : List Nat) : vm_object :=
  { page_cache := offs.map (fun o => mk_page (o * PAGE_SIZE) none o),
    npages := offs.length, refcnt := 0, pager := none }

/-! ## Kernel address spaces (`src/generic/space.c`) -/

/-- A `struct address_space`: its id, its page-table root (a pointer into the
pool of roots), the counter of threads attached and the state of its list node:
`linked` holds when `list_empty(&space->list)` fails.  The counter `ktcb_refs`
is a 32-bit C integer; it is kept as its bit pattern, a number below 2^32, of
which the code only asks whether it is zero. -/
structure address_space where
  spid : Int
  pgd : Option Nat
  ktcb_refs : Nat
  linked : Bool
  deriving DecidableEq, Repr

/-- A page-table root as far as `space.c` is concerned: whether the kernel
entries have been copied in, and the user tables it refers to. -/
structure pgd_table where
  kern : Bool
  user : List Nat
  deriving DecidableEq, Repr

/-- A `struct ktcb`: the address space the thread is attached to. -/
structure ktcb where
  space : Option Nat
  deriving DecidableEq, Repr

/-- A `struct address_space_list`: the linked spaces (pointers, first entry
first) and the count.  The count is a C `int`; a registry cannot hold 2^31
spaces in a 32-bit address space, so it is an integer without wrap-around. -/
structure address_space_list where
  list : List Nat
  count : Int
  deriving DecidableEq, Repr

/-- State of the kernel as far as `space.c` touches it: the registry of the
current container, the pool of space structures (`none` is a free slot, a
pointer is the slot number), the pool of page-table roots, the bitmap of the
id pool `kernel_container.space_ids` and the threads. -/
structure Kernel where
  space_list : address_space_list
  spaces : List (Option address_space)
  pgds : List (Option pgd_table)
  space_ids : List Bool
  tasks : List ktcb
  deriving DecidableEq, Repr

/-- The space structure a pointer designates, if it designates one. -/
def space_at (k : Kernel) (space : Nat) : Option address_space :=
  (k.spaces[space]?).join

/-- Store `sp` at the pointer `space`. -/
def set_space (k : Kernel) (space : Nat) (sp : address_space) : Kernel :=
  { k with spaces := k.spaces.set space (some sp) }

/-- Number of the first free slot of a pool. -/
def first_free {α : Type} : List (Option α) → Option Nat
  | [] => none
  | none :: _ => some 0
  | some _ :: rest => (first_free rest).map (fun i => i + 1)

/-- Modelled from the spec: `alloc_space` is not part of the sources ("allocate
a space structure"): the first free slot of the pool, zero-filled (the list
node of a zero-filled structure does not point at itself), or `none` for null
when the pool is exhausted. -/
def alloc_space (k : Kernel) : Option (Kernel × Nat) :=
  match first_free k.spaces with
  | none => none
  | some p =>
      let zeroed : address_space := { spid := 0, pgd := none, ktcb_refs := 0, linked := true }
      some ({ k with spaces := k.spaces.set p (some zeroed) }, p)

/-- Modelled from the spec: `free_space` is not part of the sources ("frees the
structure"): the slot becomes free. -/
def free_space (k : Kernel) (space : Nat) : Kernel :=
  { k with spaces := k.spaces.set space none }

/-- Modelled from the spec: `alloc_pgd` is not part of the sources ("allocate
... a table root"): the first free root, empty, or `none` for null. -/
def alloc_pgd (k : Kernel) : Option (Kernel × Nat) :=
  match first_free k.pgds with
  | none => none
  | some p => some ({ k with pgds := k.pgds.set p (some { kern := false, user := [] }) }, p)

/-- Modelled from the spec: `free_pgd` is not part of the sources ("free a
table root"): the root becomes free. -/
def free_pgd (k : Kernel) (pgd : Nat) : Kernel :=
  { k with pgds := k.pgds.set pgd none }

/-- Number of the first id that is not in use. -/
def first_unused : List Bool → Option Nat
  | [] => none
  | false :: _ => some 0
  | true :: rest => (first_unused rest).map (fun i => i + 1)

/-- Modelled from the spec: `id_new` is not part of the sources ("allocate →
unique id"): the first id not in use is marked as used and returned; -1 when
every id is in use. -/
def id_new (k : Kernel) : Kernel × Int :=
  match first_unused k.space_ids with
  | none => (k, -1)
  | some i => ({ k with space_ids := k.space_ids.set i true }, (i : Int))

/-- Modelled from the spec: `id_del` is not part of the sources ("release(id) →
returns id to pool; double-release is a fatal misuse"). -/
def id_del (k : Kernel) (id : Int) : Outcome Kernel Unit :=
  if 0 ≤ id ∧ k.space_ids[id.toNat]? = some true then
    .ret { k with space_ids := k.space_ids.set id.toNat false } ()
  else .fatal k

/-- Modelled from the spec: `copy_pgd_kern_all` is not part of the sources
("copy kernel-global mappings into a root"). -/
def copy_pgd_kern_all (k : Kernel) (pgd : Nat) : Kernel :=
  match (k.pgds[pgd]?).join with
  | none => k
  | some t => { k with pgds := k.pgds.set pgd (some { t with kern := true }) }

/-- Modelled from the spec: `copy_user_tables` is not part of the sources
("copy another space's user mappings into a root"); `res` is its return value,
which is negative when it fails.  A failing copy is taken to leave nothing
behind. -/
def copy_user_tables (k : Kernel) (space orig : Nat) (res : Int) : Kernel × Int :=
  if res < 0 then (k, res)
  else
    match space_at k space, space_at k orig with
    | some sp, some o =>
        match sp.pgd, (o.pgd.bind (fun q => (k.pgds[q]?).join)) with
        | some p, some ot =>
            let t' := ((k.pgds[p]?).join).map (fun t => { t with user := ot.user })
            ({ k with pgds := k.pgds.set p t' }, res)
        | _, _ => (k, res)
    | _, _ => (k, res)

/-- Modelled from the spec: `delete_page_tables` is not part of the sources
("releases private page-table nodes"): the user tables of the root of the
space are dropped. -/
def delete_page_tables (k : Kernel) (space : Nat) : Kernel :=
  match (space_at k space).bind (fun sp => sp.pgd) with
  | none => k
  | some p =>
      let t' := ((k.pgds[p]?).join).map (fun t => { t with user := [] })
      { k with pgds := k.pgds.set p t' }

/-- Function `init_address_space_list(space_list)` on the registry of the
current container: the structure is zero-filled and its list emptied. -/
def init_address_space_list (k : Kernel) : Kernel :=
  { k with space_list := { list := [], count := 0 } }

/-- Function `address_space_attach(tcb, space)`; `space->ktcb_refs++`
increments a 32-bit counter, which wraps. -/
def address_space_attach (k : Kernel) (tcb space : Nat) : Outcome Kernel Unit :=
  match k.tasks[tcb]?, space_at k space with
  | some t, some sp =>
      let k1 := { k with tasks := k.tasks.set tcb { t with space := some space } }
      .ret (set_space k1 space { sp with ktcb_refs := (sp.ktcb_refs + 1) % WORD }) ()
  | _, _ => .wild k

/-- Function `address_space_find(spid)`: the first linked space with the id, or
`none` for 0. -/
def address_space_find (k : Kernel) (spid : Int) : Option Nat :=
  k.space_list.list.find? (fun p => (space_at k p).any (fun sp => sp.spid = spid))

/-- Function `address_space_add(space)`. -/
def address_space_add (k : Kernel) (space : Nat) : Outcome Kernel Unit :=
  match space_at k space with
  | none => .wild k
  | some sp =>
      if sp.linked then .fatal k
      else
        let k1 := set_space k space { sp with linked := true }
        let k2 := { k1 with space_list :=
                      { k1.space_list with list := list_add_head space k1.space_list.list } }
        let k3 := { k2 with space_list :=
                      { k2.space_list with count := k2.space_list.count + 1 } }
        if k3.space_list.count = 0 then .fatal k3 else .ret k3 ()

/-- Function `address_space_remove(space)`; `list_remove_init` unlinks the node
from the list it is in and makes it point at itself. -/
def address_space_remove (k : Kernel) (space : Nat) : Outcome Kernel Unit :=
  match space_at k space with
  | none => .wild k
  | some sp =>
      if ¬ sp.linked then .fatal k
      else
        let k1 := { k with space_list :=
                      { k.space_list with count := k.space_list.count - 1 } }
        if k1.space_list.count < 0 then .fatal k1
        else
          let k2 := { k1 with space_list :=
                        { k1.space_list with list := k1.space_list.list.erase space } }
          .ret (set_space k2 space { sp with linked := false }) ()

/-- Function `address_space_delete(space)`. -/
def address_space_delete (k : Kernel) (space : Nat) : Outcome Kernel Unit :=
  match space_at k space with
  | none => .wild k
  | some sp =>
      if sp.ktcb_refs ≠ 0 then .fatal k
      else
        let k1 := delete_page_tables k space
        match id_del k1 sp.spid with
        | .fatal k2 => .fatal k2
        | .wild k2 => .wild k2
        | .ret k2 _ => .ret (free_space k2 space) ()

/-- Function `address_space_create(orig)`; `copy_res` is what
`copy_user_tables` returns when it is called.  The value is the new space or
the error code of the error pointer. -/
def address_space_create (k : Kernel) (orig : Option Nat) (copy_res : Int) :
    Outcome Kernel (Except Int Nat) :=
  match alloc_space k with
  | none => .ret k (.error (-ENOMEM))
  | some (k1, space) =>
      match alloc_pgd k1 with
      | none => .ret (free_space k1 space) (.error (-ENOMEM))
      | some (k2, pgd) =>
          match space_at k2 space with
          | none => .wild k2
          | some sp =>
              let sp := { sp with linked := false }
              let sp := { sp with pgd := some pgd }
              let k3 := copy_pgd_kern_all (set_space k2 space sp) pgd
              let (k4, id) := id_new k3
              let k5 := set_space k4 space { sp with spid := id }
              match orig with
              | some o =>
                  let (k6, err) := copy_user_tables k5 space o copy_res
                  if err < 0 then
                    .ret (free_space (free_pgd k6 pgd) space) (.error err)
                  else .ret k6 (.ok space)
              | none => .ret k5 (.ok space)

/-- The registry is in order: the count is the number of linked spaces, no
space is linked twice, and the linked spaces are those whose list node is in use. -/
def reg_inv (k : Kernel) : Prop :=
  k.space_list.count = k.space_list.list.length ∧ k.space_list.list.Nodup
    ∧ ∀ p, p ∈ k.space_list.list ↔ ∃ sp, space_at k p = some sp ∧ sp.linked = true

/-! ### Sequences of registry calls and of attachments -/

/-- A call on the registry. -/
inductive RegOp where
  | add (space : Nat)
  | remove (space : Nat)
  deriving DecidableEq, Repr

/-- Run one registry call. -/
def reg_call (k : Kernel) : RegOp → Outcome Kernel Unit
  | .add space => address_space_add k space
  | .remove space => address_space_remove k space

/-- Run a sequence of registry calls; `none` when one of them does not return
(it hits a fatal assertion or follows a pointer that designates no space). -/
def run_reg_ops : Kernel → List RegOp → Option Kernel
  | k, [] => some k
  | k, op :: rest =>
      match reg_call k op with
      | .ret k' _ => run_reg_ops k' rest
      | .fatal _ => none
      | .wild _ => none

/-- Attach the threads of the list, one after the other, to `space`; `none`
when a pointer designates no thread or no space. -/
def attach_all : Kernel → List Nat → Nat → Option Kernel
  | k, [], _ => some k
  | k, t :: rest, space =>
      match address_space_attach k t space with
      | .ret k' _ => attach_all k' rest space
      | .fatal _ => none
      | .wild _ => none

/-! ### `check_access` -/

/-- Size of the user area; `memlayout.h` is not part of the sources, and no
statement below depends on the value chosen. -/
def USER_AREA_SIZE : Nat := 268435456

/-- A call `check_access` makes to one of its collaborators, with the
arguments `(start, mapsize, flags)`. -/
inductive AccessCall where
  | check_mapping (start mapsize flags : Nat)
  | pager_pagein_request (start mapsize flags : Nat)
  deriving DecidableEq, Repr

/-- The page-rounded range `(start, mapsize)` that `check_access` computes
from `vaddr` and `size`, in `unsigned long` arithmetic. -/
def check_access_range (vaddr size : Nat) : Nat × Nat :=
  let start := page_align vaddr
  let end_ := page_align_up ((vaddr + size) % WORD)
  let mapsize := (end_ + WORD - start) % WORD
  (start, mapsize)

/-- Function `check_access(vaddr, size, flags, page_in)`.  `check_mapping` and
`pager_pagein_request` are the collaborators; the result is the return value
and the calls made to them, in order. -/
def check_access (check_mapping : Nat → Nat → Nat → Int)
    (pager_pagein_request : Nat → Nat → Nat → Int)
    (vaddr size flags : Nat) (page_in : Int) : Int × List AccessCall :=
  if size ≥ USER_AREA_SIZE then (-EINVAL, [])
  else
    let (start, mapsize) := check_access_range vaddr size
    if check_mapping start mapsize flags = 0 then
      if page_in ≠ 0 then
        let err := pager_pagein_request start mapsize flags
        if err < 0 then
          (err, [.check_mapping start mapsize flags, .pager_pagein_request start mapsize flags])
        else
          (0, [.check_mapping start mapsize flags, .pager_pagein_request start mapsize flags])
      else (-EFAULT, [.check_mapping start mapsize flags])
    else (0, [.check_mapping start mapsize flags])

/-- A kernel with `n` free space structures, `n` free page-table roots, `n`
unused ids, `n` unattached threads and an initialised registry. -/
def empty_kernel (n : Nat) : Kernel :=
  init_address_space_list
    { space_list := { list := [], count := 0 },
      spaces := List.replicate n none, pgds := List.replicate n none,
      space_ids := List.replicate n false, tasks := List.replicate n { space := none } }

/-- A kernel with the spaces 0, 1 and 2 created and not linked anywhere. -/
def three_spaces : Kernel :=
  { space_list := { list := [], count := 0 },
    spaces := [some { spid := 0, pgd := some 0, ktcb_refs := 0, linked := false },
               some { spid := 1, pgd := some 1, ktcb_refs := 0, linked := false },
               some { spid := 2, pgd := some 2, ktcb_refs := 0, linked := false }],
    pgds := [some { kern := true, user := [] }, some { kern := true, user := [] },
             some { kern := true, user := [] }],
    space_ids := [true, true, true], tasks := [{ space := none }, { space := none }] }

/-- A kernel in which the space 0 has been created from scratch. -/
def created_kernel : Kernel :=
  { space_list := { list := [], count := 0 },
    spaces := [some { spid := 0, pgd := some 0, ktcb_refs := 0, linked := false }, none, none],
    pgds := [some { kern := true, user := [] }, none, none],
    space_ids := [true, false, false],
    tasks := [{ space := none }, { space := none }, { space := none }] }

/-- A kernel with the spaces 0 and 1 created; the list node of space 1 is
linked into a list that is not the registry of the current container. -/
def foreign_link_kernel : Kernel :=
  { space_list := { list := [], count := 0 },
    spaces := [some { spid := 0, pgd := some 0, ktcb_refs := 0, linked := false },
               some { spid := 1, pgd := some 1, ktcb_refs := 0, linked := true }],
    pgds := [some { kern := true, user := [] }, some { kern := true, user := [] }],
    space_ids := [true, true], tasks := [] }

/-! ## Notions used to state the properties of the pager -/

/-- The state an outcome carries: the one returned, or the one reached when the
call stopped. -/
def Outcome.state {σ α : Type} : Outcome σ α → σ
  | .ret s _ => s
  | .fatal s => s
  | .wild s => s

/-- The `page_in` operation succeeds for each of the `n` offsets
`start, start + 1, ...`, called in this order on the object the call before
left; yields the object after the last call. -/
def page_in_all (page_in : vm_object → Nat → PageIn) : Nat → Nat → vm_object → Option vm_object
  | 0, _, vmo => some vmo
  | n + 1, start, vmo =>
      match page_in vmo start with
      | .page vmo' => page_in_all page_in n (start + 1) vmo'
      | .error _ => none

/-- The ways out of the scan of `insert_page_olist`: the page is linked and the
function returns 0, one of `BUG()` / `BUG_ON()` inside the loop fires, or the
loop ends and the trailing `BUG()` is reached. -/
inductive ScanExit where
  | linked (l : List page)
  | bug_in_loop
  | bug_after_loop
  deriving DecidableEq, Repr

/-- The loop of `insert_page_olist` once more, as `insert_page_scan`, telling
the two fatal ways out apart. -/
def insert_page_scan_exit (this : page) : List page → List page → ScanExit
  | _, [] => .bug_after_loop
  | pre, [before] =>
      if this.offset > before.offset then
        .linked (list_add_tail_node this pre before [])
      else if this.offset < before.offset then
        .linked (list_add_node this pre before [])
      else .bug_in_loop
  | pre, before :: after :: rest =>
      if before.offset < this.offset ∧ after.offset > this.offset then
        .linked (list_add_tail_node this pre before (after :: rest))
      else if this.offset = before.offset then .bug_in_loop
      else if this.offset = after.offset then .bug_in_loop
      else insert_page_scan_exit this (pre ++ [before]) (after :: rest)

/-- What the scan hands to `insert_page_olist` on each way out. -/
def ScanExit.result : ScanExit → Option (List page)
  | .linked l => some l
  | .bug_in_loop => none
  | .bug_after_loop => none

/-! ## Sample states and collaborators -/

/-- A descriptor table with every slot bound to the file pointer 0, cursor `c`. -/
def bound_table (c : Nat) : List file_descriptor :=
  List.replicate TASK_FILES_MAX { vnum := 7, cursor := c, vmfile := some 0 }

/-- A pager state with the single task 5, whose descriptors are bound to the
one file 7 of tracked length `L` caching pages with the offsets `offs`; the
file is linked the way `vfs_receive_sys_open` links one. -/
def one_file_state (L c : Nat) (offs : List Nat) : State :=
  { tasks := [{ tid := 5, fd := bound_table c }],
    files := [{ type := VM_FILE_VFS, vnum := 7, length := L, vm_obj := vmo_of_offsets offs }],
    vm_file_list := [{ file := 0, member := .vm_obj_list }], pagein_calls := [] }

/-- A `page_in` operation that always succeeds and leaves the requested page
resident: a page that is missing is put behind the cached ones. -/
def resident_page_in (vmo : vm_object) (off : Nat) : PageIn :=
  if off ∈ cache_offsets vmo then .page vmo
  else .page { vmo with page_cache := vmo.page_cache ++ [mk_page (off * PAGE_SIZE) none off],
                        npages := vmo.npages + 1 }

/-- A `page_in` operation that fails with the code `-(e + 1)` at the offset
`bad` and succeeds elsewhere. -/
def page_in_failing_at (bad e : Nat) : vm_object → Nat → PageIn :=
  fun vmo off => if off = bad then .error e else resident_page_in vmo off

/-- A page allocator that always hands out the memory at `paddr`. -/
def alloc_page_at (paddr : Nat) : Nat → Option Nat := fun _ => some paddr

/-- An unbound descriptor table: every pointer is null. -/
def unbound_table : List file_descriptor :=
  List.replicate TASK_FILES_MAX { vnum := 0, cursor := 0, vmfile := none }

/-- A pager state with the tasks 5 and 6, no file object and an empty `vm_file_list`. -/
def two_task_state : State :=
  { tasks := [{ tid := 5, fd := unbound_table }, { tid := 6, fd := unbound_table }],
    files := [], vm_file_list := [], pagein_calls := [] }

/-- The state `two_task_state` after the open notification for task 5,
descriptor 0, identifier 7 and length 8192. -/
def opened_once_state : State :=
  { tasks := [{ tid := 5, fd := unbound_table.set 0 { vnum := 7, cursor := 0, vmfile := none } },
              { tid := 6, fd := unbound_table }],
    files := [{ type := VM_FILE_VFS, vnum := 7, length := 8192,
                vm_obj := { page_cache := [], npages := 0, refcnt := 0, pager := some file_pager } }],
    vm_file_list := [{ file := 0, member := .vm_obj_list }], pagein_calls := [] }

/-- A layout in which the words read through a displaced pointer never pass
the test of the loop: the type read has no bit set. -/
def stray_no_match : StrayRead := fun _ _ => some (0, 0)

/-! ## Theorems -/

/-- C1 (evaluation at the failing inputs): the cache holds the offsets 5, 9 in
strictly ascending order and the page with the new offset 3 is inserted; the
call returns 0 and the cache then yields 5, 9, 3, which is not ascending.
Likewise, inserting the distinct offsets 0 and then 1 into the empty cache
returns 0 twice and leaves the cache yielding 1, 0. -/
theorem insert_page_olist_breaks_order :
    strictly_ascending (cache_offsets (vmo_of_offsets [5, 9]))
      ∧ (∃ vmo, insert_page_olist (mk_page 0 none 3) (vmo_of_offsets [5, 9]) = .ret vmo 0
          ∧ cache_offsets vmo = [5, 9, 3])
      ∧ ¬ strictly_ascending [5, 9, 3]
      ∧ (∃ v1 v2, insert_page_olist (mk_page 0 none 0) (vmo_of_offsets []) = .ret v1 0
          ∧ insert_page_olist (mk_page 4096 none 1) v1 = .ret v2 0
          ∧ cache_offsets v2 = [1, 0])
      ∧ ¬ strictly_ascending [1, 0] := by
  refine ⟨by decide, ⟨_, rfl, by decide⟩, by decide, ⟨_, _, rfl, rfl, by decide⟩, by decide⟩

/-- C2 (evaluation at the failing input): pages 0 and 1 are consecutively
resident, the intra-page offset is 1 and the count 4096, so that
1 + 4096 <= 2 * PAGE_SIZE.  The call returns 4096 after one `memcpy` of 4096
bytes from byte 1 of the mapping of page 0: the source range ends one byte
behind the page, and `buf[4095]` comes from byte 4096 of that mapping where
the first byte of page 1 belongs. -/
theorem read_cache_pages_overruns_first_page :
    cache_offsets (vmo_of_offsets [0, 1]) = [0, 1] ∧ 1 < PAGE_SIZE
      ∧ 1 + 4096 ≤ (2 - 0) * PAGE_SIZE
      ∧ read_cache_pages (vmo_of_offsets [0, 1]) 0 2 1 4096
          = .ret [{ dst := 0, page := mk_page 0 none 0, src := 1, len := 4096 }] 4096
      ∧ ¬ Copy.in_page { dst := 0, page := mk_page 0 none 0, src := 1, len := 4096 }
      ∧ buf_source [{ dst := 0, page := mk_page 0 none 0, src := 1, len := 4096 }] 4095
          = some (0, 4096) := by
  refine ⟨by decide, by decide, by decide, by rfl, by decide, by decide⟩

/-- C3 (evaluation at the failing input): the file has the tracked length 100,
the cursor is 0 and 100 bytes are requested, so that c + n <= L.  Whatever the
`page_in` operation is, `sys_read` requests no page (the range is clipped to
`__pfn(100) = 0` pages), finds nothing in the cache, returns 0 instead of 100
and leaves the cursor at 0. -/
theorem sys_read_short_file_returns_zero (page_in : vm_object → Nat → PageIn) :
    sys_read page_in (one_file_state 100 0 []) 5 0 100
      = .ret (one_file_state 100 0 []) ({ ret := 0, ipc := none }, []) := by
  rfl

/-- The scenario of C3: with a length of 8192, the cursor at 0 and a count of
4096, `sys_read` pages in page 0, returns 4096 and leaves the cursor at 4096. -/
theorem sys_read_scenario_first_page :
    ∃ s cs, sys_read resident_page_in (one_file_state 8192 0 []) 5 0 4096
        = .ret s ({ ret := 4096, ipc := none }, cs)
      ∧ s.pagein_calls = [0]
      ∧ (s.tasks[0]?).bind (fun t => fd_slot t 0)
          = some { vnum := 7, cursor := 4096, vmfile := some 0 } := by
  refine ⟨_, _, rfl, rfl, rfl⟩

/-! ### The walk of `vfs_receive_sys_open` -/

/-- A walk over nodes that are all linked through `vm_obj.list` yields no file
object: it leaves the file objects or exhausts the list. -/
theorem vfs_open_lookup_displaced (stray : StrayRead) (s : State) (vnum : Nat) :
    ∀ l : List file_link, (∀ x ∈ l, x.member = .vm_obj_list) →
      vfs_open_lookup stray s vnum l = none ∨ vfs_open_lookup stray s vnum l = some none := by
  intro l
  induction l with
  | nil => intro _; right; rfl
  | cons x rest ih =>
      intro h
      have hx : x.member = .vm_obj_list := h x (List.mem_cons_self _ _)
      have hr := ih (fun y hy => h y (List.mem_cons_of_mem _ hy))
      unfold vfs_open_lookup
      rw [hx]
      dsimp only
      split
      · left; rfl
      · split
        · left; rfl
        · exact hr

/-- With valid arguments, a walk that leaves the file objects makes the call wild. -/
theorem vfs_receive_sys_open_lookup_wild (stray : StrayRead) (mem_ok : Bool) (s : State)
    (opener fd : Int) (vnum length ti : Nat) (d : file_descriptor)
    (ht : find_task s.tasks opener = some ti) (hfd : ¬ (fd < 0 ∨ fd > TASK_FILES_MAX))
    (hd : (s.tasks[ti]?).bind (fun t => fd_slot t fd) = some d)
    (hl : vfs_open_lookup stray (set_fd s ti fd { vnum := vnum, cursor := 0, vmfile := d.vmfile })
            vnum s.vm_file_list = none) :
    vfs_receive_sys_open stray mem_ok s VFS_TID opener fd vnum length
      = .wild (set_fd s ti fd { vnum := vnum, cursor := 0, vmfile := d.vmfile }) := by
  unfold vfs_receive_sys_open
  simp only [ne_eq, not_true_eq_false, if_false, ht, hfd, hd]
  have e : (set_fd s ti fd { vnum := vnum, cursor := 0, vmfile := d.vmfile }).vm_file_list
      = s.vm_file_list := rfl
  rw [e, hl]

/-- With valid arguments and memory at hand, a walk that exhausts the list
makes the call create and link a new object. -/
theorem vfs_receive_sys_open_lookup_exhausted (stray : StrayRead) (s : State)
    (opener fd : Int) (vnum length ti : Nat) (d : file_descriptor)
    (ht : find_task s.tasks opener = some ti) (hfd : ¬ (fd < 0 ∨ fd > TASK_FILES_MAX))
    (hd : (s.tasks[ti]?).bind (fun t => fd_slot t fd) = some d)
    (hl : vfs_open_lookup stray (set_fd s ti fd { vnum := vnum, cursor := 0, vmfile := d.vmfile })
            vnum s.vm_file_list = some none) :
    vfs_receive_sys_open stray true s VFS_TID opener fd vnum length
      = .ret { set_fd s ti fd { vnum := vnum, cursor := 0, vmfile := d.vmfile } with
          files := s.files ++ [{ type := VM_FILE_VFS, vnum := vnum, length := length,
                                 vm_obj := { page_cache := [], npages := 0, refcnt := 0,
                                             pager := some file_pager } }],
          vm_file_list := { file := s.files.length, member := .vm_obj_list } :: s.vm_file_list } 0 := by
  unfold vfs_receive_sys_open
  simp only [ne_eq, not_true_eq_false, if_false, ht, hfd, hd]
  have e : (set_fd s ti fd { vnum := vnum, cursor := 0, vmfile := d.vmfile }).vm_file_list
      = s.vm_file_list := rfl
  rw [e, hl]
  rfl

/-- C5 (evaluation at the failing input): starting from an empty registry, the
open notification for task 5, descriptor 0 and identifier 7 returns 0 and
registers the new object 0 with no reference counted, yet descriptor 0 of
task 5 still holds the null pointer; this holds whatever the layout of the file
structure.  The same notification for task 6 then either leaves the file
objects or returns 0 with both descriptors still null and no reference counted
on any object; in the layout `stray_no_match` it returns 0. -/
theorem vfs_receive_sys_open_leaves_creator_unbound (stray : StrayRead) :
    ∃ s1, vfs_receive_sys_open stray true two_task_state VFS_TID 5 0 7 8192 = .ret s1 0
      ∧ s1.vm_file_list = [{ file := 0, member := .vm_obj_list }]
      ∧ s1.files.map (fun f => (f.vnum, f.length)) = [(7, 8192)]
      ∧ s1.files.map (fun f => f.vm_obj.refcnt) = [0]
      ∧ (s1.tasks[0]?).bind (fun t => fd_slot t 0) = some { vnum := 7, cursor := 0, vmfile := none }
      ∧ ((∃ sw, vfs_receive_sys_open stray true s1 VFS_TID 6 0 7 8192 = .wild sw)
          ∨ ∃ s2, vfs_receive_sys_open stray true s1 VFS_TID 6 0 7 8192 = .ret s2 0
              ∧ (s2.tasks[0]?).bind (fun t => fd_slot t 0)
                  = some { vnum := 7, cursor := 0, vmfile := none }
              ∧ (s2.tasks[1]?).bind (fun t => fd_slot t 0)
                  = some { vnum := 7, cursor := 0, vmfile := none }
              ∧ s2.files.map (fun f => f.vm_obj.refcnt) = [0, 0])
      ∧ ∃ s2, vfs_receive_sys_open stray_no_match true s1 VFS_TID 6 0 7 8192 = .ret s2 0
          ∧ (s2.tasks[0]?).bind (fun t => fd_slot t 0)
              = some { vnum := 7, cursor := 0, vmfile := none }
          ∧ (s2.tasks[1]?).bind (fun t => fd_slot t 0)
              = some { vnum := 7, cursor := 0, vmfile := none }
          ∧ s2.files.map (fun f => f.vm_obj.refcnt) = [0, 0] := by
  refine ⟨opened_once_state, rfl, rfl, rfl, rfl, rfl, ?_, ⟨_, rfl, rfl, rfl, rfl⟩⟩
  rcases vfs_open_lookup_displaced stray
      (set_fd opened_once_state 1 0 { vnum := 7, cursor := 0, vmfile := none }) 7
      opened_once_state.vm_file_list (by decide) with h | h
  · exact Or.inl ⟨_, vfs_receive_sys_open_lookup_wild stray true opened_once_state 6 0 7 8192 1
      { vnum := 0, cursor := 0, vmfile := none } rfl (by decide) rfl h⟩
  · exact Or.inr ⟨_, vfs_receive_sys_open_lookup_exhausted stray opened_once_state 6 0 7 8192 1
      { vnum := 0, cursor := 0, vmfile := none } rfl (by decide) rfl h, rfl, rfl, rfl⟩

/-! ### `sys_write` on a fresh file -/

/-- Scanning a cache whose entries all lie below the new offset passes every
pair and links the new page in front of the last entry. -/
theorem insert_page_scan_all_below (this : page) (l : List page) :
    ∀ (pre : List page) (z : page), (∀ x ∈ l, x.offset < this.offset) →
      z.offset < this.offset →
      insert_page_scan this pre (l ++ [z]) = some (pre ++ l ++ [this, z]) := by
  induction l with
  | nil =>
      intro pre z _ hz
      simp [insert_page_scan, list_add_tail_node, hz]
  | cons b l ih =>
      intro pre z hl hz
      have hb : b.offset < this.offset := hl b (List.mem_cons_self _ _)
      have hl' : ∀ x ∈ l, x.offset < this.offset :=
        fun x hx => hl x (List.mem_cons_of_mem _ hx)
      cases l with
      | nil =>
          have h1 : ¬ (this.offset < z.offset) := by omega
          have h2 : ¬ (this.offset = b.offset) := by omega
          have h3 : ¬ (this.offset = z.offset) := by omega
          simp [insert_page_scan, list_add_tail_node, h1, h2, h3, hz]
      | cons a l =>
          have ha : a.offset < this.offset := hl' a (List.mem_cons_self _ _)
          have h1 : ¬ (this.offset < a.offset) := by omega
          have h2 : ¬ (this.offset = b.offset) := by omega
          have h3 : ¬ (this.offset = a.offset) := by omega
          have := ih (pre ++ [b]) z hl' hz
          simp only [List.cons_append] at this
          simp [insert_page_scan, h1, h2, h3, this]

/-- The loop of `new_file_pages` for `start = 0`, once page 0 is cached last
and pages `1 .. i - 1` in front of it: each further page is linked in front of
page 0, so `todo` iterations leave the offsets `1 .. i + todo - 1, 0`. -/
theorem new_file_pages_loop_from_zero (fa paddr : Nat) :
    ∀ (todo i : Nat) (vmo : vm_object), 1 ≤ i → i + todo < WORD →
      cache_offsets vmo = List.range' 1 (i - 1) ++ [0] →
      ∃ vmo', new_file_pages_loop fa paddr 0 todo i vmo = .ret vmo' ()
        ∧ cache_offsets vmo' = List.range' 1 (i + todo - 1) ++ [0]
        ∧ vmo'.npages = vmo.npages := by
  intro todo
  induction todo with
  | zero =>
      intro i vmo _ _ hc
      exact ⟨vmo, rfl, by simpa using hc, rfl⟩
  | succ todo ih =>
      intro i vmo hi hw hc
      have hmod : i % WORD = i := Nat.mod_eq_of_lt (by omega)
      obtain ⟨ps, z, hps⟩ : ∃ ps z, vmo.page_cache = ps ++ [z] := by
        have hne : vmo.page_cache ≠ [] := by
          intro h; simp [cache_offsets, h] at hc
        exact ⟨vmo.page_cache.dropLast, vmo.page_cache.getLast hne,
          (List.dropLast_append_getLast hne).symm⟩
      have hoff : ps.map page.offset = List.range' 1 (i - 1) ∧ z.offset = 0 := by
        have h := hc
        simp only [cache_offsets, hps, List.map_append, List.map_cons, List.map_nil] at h
        have hlen : (ps.map page.offset).length = (List.range' 1 (i - 1)).length := by
          have := congrArg List.length h
          simp only [List.length_append, List.length_cons, List.length_nil] at this
          omega
        have := List.append_inj h hlen
        exact ⟨this.1, by simpa using this.2⟩
      have hbelow : ∀ x ∈ ps, x.offset < i := by
        intro x hx
        have : x.offset ∈ ps.map page.offset := List.mem_map_of_mem _ hx
        rw [hoff.1, List.mem_range'_1] at this
        omega
      have hne : vmo.page_cache ≠ [] := by simp [hps]
      have hz : z.offset < i := by omega
      have hscan := insert_page_scan_all_below
        { phys := paddr + PAGE_SIZE * i, offset := i, refcnt := 1, owner := some fa, virt := 0 }
        ps [] z hbelow hz
      obtain ⟨vmo', h1, h2, h3⟩ := ih (i + 1)
        { vmo with page_cache := ps ++
            [{ phys := paddr + PAGE_SIZE * i, offset := i, refcnt := 1, owner := some fa, virt := 0 }, z] }
        (by omega) (by omega)
        (by
          simp only [cache_offsets, List.map_append, List.map_cons, List.map_nil, hoff.1, hoff.2]
          have : i + 1 - 1 = (i - 1) + 1 := by omega
          rw [this, List.range'_concat]
          simp
          omega)
      refine ⟨vmo', ?_, ?_, h3⟩
      · rw [← h1]
        simp only [new_file_pages_loop, page_init, Nat.zero_add, hmod, insert_page_olist, hne,
          if_false]
        rw [hps, hscan]
        simp
      · rw [h2]
        congr 2
        omega

/-- On an empty cache `new_file_pages(f, 0, k)` succeeds when the allocator
does, caching the offsets `1 .. k - 1, 0` and counting `k` more pages. -/
theorem new_file_pages_fresh (alloc_page : Nat → Option Nat) (fa paddr k : Nat) (f : vm_file)
    (hk : 1 ≤ k) (hkw : k < WORD) (hempty : f.vm_obj.page_cache = [])
    (halloc : alloc_page k = some paddr) :
    ∃ vmo, new_file_pages alloc_page fa f 0 k = .ret { f with vm_obj := vmo } 0
      ∧ cache_offsets vmo = List.range' 1 (k - 1) ++ [0]
      ∧ vmo.npages = f.vm_obj.npages + k := by
  have hnp : (k + WORD - 0) % WORD = k := by
    rw [Nat.sub_zero, Nat.add_mod_right]; exact Nat.mod_eq_of_lt hkw
  obtain ⟨todo, rfl⟩ : ∃ todo, k = todo + 1 := ⟨k - 1, by omega⟩
  obtain ⟨vmo', h1, h2, h3⟩ := new_file_pages_loop_from_zero fa paddr todo 1
    { f.vm_obj with page_cache :=
        [{ phys := paddr + PAGE_SIZE * 0, offset := 0, refcnt := 1, owner := some fa, virt := 0 }] }
    (le_refl 1) (by omega) (by simp [cache_offsets])
  refine ⟨{ vmo' with npages := vmo'.npages + (todo + 1) }, ?_, ?_, ?_⟩
  · have hz : 0 % WORD = 0 := Nat.zero_mod _
    unfold new_file_pages
    simp only [hnp]
    rw [halloc]
    simp only []
    unfold new_file_pages_loop
    simp only [page_init, Nat.zero_add, hz, insert_page_olist, hempty, if_true,
      list_add_tail_head, List.nil_append]
    rw [h1]
  · simpa [cache_offsets] using h2
  · simp [h3]

/-- On a fresh file (cursor 0, length 0) the write range `[0, ceil(n / PAGE_SIZE))`
is all new pages and the existing range is empty. -/
theorem sys_write_ranges_fresh (n : Nat) (hn : n < 2 ^ 31) :
    sys_write_ranges 0 n 0
      = ((0, (n + PAGE_SIZE - 1) / PAGE_SIZE), (0, 0), (0, (n + PAGE_SIZE - 1) / PAGE_SIZE)) := by
  have h1 : (0 + n) % WORD = n := by
    rw [Nat.zero_add]; exact Nat.mod_eq_of_lt (by simp only [WORD]; omega)
  have h2 : (n + (PAGE_SIZE - 1)) % WORD = n + PAGE_SIZE - 1 := by
    simp only [WORD, PAGE_SIZE]; omega
  have h3 : __pfn (page_align_up n) = (n + PAGE_SIZE - 1) / PAGE_SIZE := by
    simp only [__pfn, page_align_up, h2]
    exact Nat.mul_div_cancel _ (by decide)
  have h4 : __pfn (page_align_up 0) = 0 := by decide
  have h5 : __pfn 0 = 0 := by decide
  simp only [sys_write_ranges, h1, h3, h4, h5, Nat.lt_irrefl, if_false]

/-- A file pointer read through `bound_file` designates a file object. -/
theorem bound_file_files {s : State} {ti : Nat} {fd : Int} {d : file_descriptor} {fa : Nat}
    {f : vm_file} (h : bound_file s ti fd = some (d, fa, f)) : s.files[fa]? = some f := by
  unfold bound_file at h
  split at h
  · exact absurd h (by simp)
  · split at h
    · exact absurd h (by simp)
    · split at h
      · exact absurd h (by simp)
      · split at h
        · exact absurd h (by simp)
        · rename_i fa' _ f' hf
          simp only [Option.some.injEq, Prod.mk.injEq] at h
          obtain ⟨_, h2, h3⟩ := h
          subst h2; subst h3
          exact hf

/-- C4 (counterexample): on the fresh zero-length file, `sys_write` with
n = 8192 does not complete: it stops in the `BUG()` of `write_cache_pages`,
the tracked length still being 0 (the two new pages are cached in the order
1, 0). -/
theorem sys_write_fresh_8192_is_fatal :
    ∃ s, sys_write resident_page_in (alloc_page_at 1048576) (one_file_state 0 0 []) 5 0 8192
        = .fatal s
      ∧ s.files.map (fun f => (f.length, cache_offsets f.vm_obj)) = [(0, [1, 0])] := by
  refine ⟨_, rfl, rfl⟩

/-- C4 (amended): for every count n > 0 (an `int`, so n < 2^31), `sys_write`
with cursor 0 on a zero-length file with an empty cache, the allocation
succeeding, invokes no `page_in`, adds exactly ceil(n / PAGE_SIZE) pages to the
cache, one for each of the offsets 0 .. ceil(n / PAGE_SIZE) - 1, and then stops
in the `BUG()` of `write_cache_pages`: the call does not complete, the tracked
length is still 0 and no descriptor has changed. -/
theorem sys_write_fresh_file_allocates_then_aborts
    (page_in : vm_object → Nat → PageIn) (alloc_page : Nat → Option Nat) (s : State)
    (sender fd : Int) (n ti fa paddr : Nat) (d : file_descriptor) (f : vm_file)
    (hn : 0 < n) (hn31 : n < 2 ^ 31)
    (htask : find_task s.tasks sender = some ti)
    (hfd0 : 0 ≤ fd) (hfd1 : fd < TASK_FILES_MAX)
    (hbound : bound_file s ti fd = some (d, fa, f))
    (hcursor : d.cursor = 0) (hlen : f.length = 0) (hempty : f.vm_obj.page_cache = [])
    (halloc : alloc_page ((n + PAGE_SIZE - 1) / PAGE_SIZE) = some paddr) :
    ∃ s' f', sys_write page_in alloc_page s sender fd n = .fatal s'
      ∧ s'.files[fa]? = some f'
      ∧ (cache_offsets f'.vm_obj).Perm (List.range ((n + PAGE_SIZE - 1) / PAGE_SIZE))
      ∧ f'.vm_obj.npages = f.vm_obj.npages + (n + PAGE_SIZE - 1) / PAGE_SIZE
      ∧ f'.length = 0
      ∧ s'.tasks = s.tasks ∧ s'.pagein_calls = s.pagein_calls := by
  have hk1 : 1 ≤ (n + PAGE_SIZE - 1) / PAGE_SIZE := by
    simp only [PAGE_SIZE]; omega
  have hkw : (n + PAGE_SIZE - 1) / PAGE_SIZE < WORD := by
    simp only [PAGE_SIZE, WORD]; omega
  have hfd : ¬ (fd < 0 ∨ fd > (TASK_FILES_MAX : Int)) := by omega
  have hfa : fa < s.files.length := by
    have := bound_file_files hbound
    exact (List.getElem?_eq_some.mp this).1
  obtain ⟨vmo, h1, h2, h3⟩ := new_file_pages_fresh alloc_page fa paddr _ f hk1 hkw hempty halloc
  have hrange : sys_write_ranges d.cursor n f.length
      = ((0, (n + PAGE_SIZE - 1) / PAGE_SIZE), (0, 0), (0, (n + PAGE_SIZE - 1) / PAGE_SIZE)) := by
    rw [hcursor, hlen]; exact sys_write_ranges_fresh n hn31
  have h1' : new_file_pages alloc_page fa { f with vm_obj := f.vm_obj } 0
      ((n + PAGE_SIZE - 1) / PAGE_SIZE) = .ret { f with vm_obj := vmo } 0 := h1
  refine ⟨set_file { set_file s fa f with pagein_calls := s.pagein_calls ++ [] } fa
    { f with vm_obj := vmo }, { f with vm_obj := vmo }, ?_, ?_, ?_, h3, hlen, ?_, ?_⟩
  · unfold sys_write
    simp only [htask, hfd, if_false, hbound, hrange, read_file_pages,
      Nat.sub_self, read_file_pages_loop, Int.lt_irrefl, h1', write_cache_pages]
  · simp [set_file, hfa]
  · rw [h2]
    have : (n + PAGE_SIZE - 1) / PAGE_SIZE = ((n + PAGE_SIZE - 1) / PAGE_SIZE - 1) + 1 := by omega
    rw [List.range_eq_range', this, List.range'_succ]
    exact (List.perm_append_comm :
      (List.range' 1 ((n + PAGE_SIZE - 1) / PAGE_SIZE - 1) ++ [0]).Perm _)
  · simp [set_file]
  · simp [set_file]

/-- Witness of C4 (amended) for n = 8192: two pages, offsets 0 and 1. -/
theorem sys_write_fresh_file_allocates_then_aborts_witness :
    ∃ s' f', sys_write resident_page_in (alloc_page_at 1048576) (one_file_state 0 0 []) 5 0 8192
        = .fatal s'
      ∧ s'.files[0]? = some f'
      ∧ (cache_offsets f'.vm_obj).Perm (List.range ((8192 + PAGE_SIZE - 1) / PAGE_SIZE))
      ∧ f'.vm_obj.npages = (vmo_of_offsets []).npages + (8192 + PAGE_SIZE - 1) / PAGE_SIZE
      ∧ f'.length = 0
      ∧ s'.tasks = (one_file_state 0 0 []).tasks
      ∧ s'.pagein_calls = (one_file_state 0 0 []).pagein_calls :=
  sys_write_fresh_file_allocates_then_aborts resident_page_in (alloc_page_at 1048576)
    (one_file_state 0 0 []) 5 0 8192 0 0 1048576
    { vnum := 7, cursor := 0, vmfile := some 0 }
    { type := VM_FILE_VFS, vnum := 7, length := 0, vm_obj := vmo_of_offsets [] }
    (by decide) (by decide) rfl (by decide) (by decide) rfl rfl rfl rfl rfl

/-! ### The global file list -/

/-- C6 (evaluation at the failing input): starting from an empty global file
list, the open notification for task 5 and identifier 7 returns 0 and links the
new object 0 through its member `vm_obj.list`.  The walk of the next
notification for the identifier 7 goes through the member `list`, so it never
examines object 0: whatever the layout, that call either leaves the file
objects or returns 0 with a second object of identifier 7 linked in front of
the first; in the layout `stray_no_match` it returns 0 and the list holds two
objects carrying the identifier 7. -/
theorem vfs_receive_sys_open_registers_twice (stray : StrayRead) :
    ∃ s1, vfs_receive_sys_open stray true two_task_state VFS_TID 5 0 7 8192 = .ret s1 0
      ∧ s1.vm_file_list = [{ file := 0, member := .vm_obj_list }]
      ∧ s1.files.map (fun f => (f.type, f.vnum, f.length)) = [(VM_FILE_VFS, 7, 8192)]
      ∧ ((∃ sw, vfs_receive_sys_open stray true s1 VFS_TID 6 0 7 8192 = .wild sw)
          ∨ ∃ s2, vfs_receive_sys_open stray true s1 VFS_TID 6 0 7 8192 = .ret s2 0
              ∧ s2.vm_file_list = [{ file := 1, member := .vm_obj_list },
                                   { file := 0, member := .vm_obj_list }]
              ∧ s2.files.map (fun f => (f.type, f.vnum, f.length))
                  = [(VM_FILE_VFS, 7, 8192), (VM_FILE_VFS, 7, 8192)])
      ∧ ∃ s2, vfs_receive_sys_open stray_no_match true s1 VFS_TID 6 0 7 8192 = .ret s2 0
          ∧ s2.vm_file_list = [{ file := 1, member := .vm_obj_list },
                               { file := 0, member := .vm_obj_list }]
          ∧ s2.files.map (fun f => (f.type, f.vnum, f.length))
              = [(VM_FILE_VFS, 7, 8192), (VM_FILE_VFS, 7, 8192)] := by
  refine ⟨opened_once_state, rfl, rfl, rfl, ?_, ⟨_, rfl, rfl, rfl⟩⟩
  rcases vfs_open_lookup_displaced stray
      (set_fd opened_once_state 1 0 { vnum := 7, cursor := 0, vmfile := none }) 7
      opened_once_state.vm_file_list (by decide) with h | h
  · exact Or.inl ⟨_, vfs_receive_sys_open_lookup_wild stray true opened_once_state 6 0 7 8192 1
      { vnum := 0, cursor := 0, vmfile := none } rfl (by decide) rfl h⟩
  · exact Or.inr ⟨_, vfs_receive_sys_open_lookup_exhausted stray opened_once_state 6 0 7 8192 1
      { vnum := 0, cursor := 0, vmfile := none } rfl (by decide) rfl h, rfl, rfl⟩

/-! ### The address-space registry -/

/-- A pointer that designates a space lies inside the pool. -/
theorem space_at_lt {k : Kernel} {p : Nat} {sp : address_space} (h : space_at k p = some sp) :
    p < k.spaces.length := by
  unfold space_at at h
  by_contra hlt
  rw [List.getElem?_eq_none (by omega)] at h
  simp at h

/-- Reading back the space just stored. -/
theorem space_at_set_space_self (k : Kernel) (p : Nat) (sp : address_space)
    (h : p < k.spaces.length) : space_at (set_space k p sp) p = some sp := by
  simp [space_at, set_space, List.getElem?_set_self h]

/-- Storing a space leaves the other spaces alone. -/
theorem space_at_set_space_ne (k : Kernel) (p q : Nat) (sp : address_space) (h : p ≠ q) :
    space_at (set_space k p sp) q = space_at k q := by
  simp [space_at, set_space, List.getElem?_set_ne h]

/-- A returning `address_space_add` keeps the registry in order. -/
theorem address_space_add_inv (k k' : Kernel) (p : Nat) (hinv : reg_inv k)
    (h : address_space_add k p = .ret k' ()) : reg_inv k' := by
  unfold address_space_add at h
  split at h
  · exact absurd h (by simp)
  · rename_i sp hsp
    split at h
    · exact absurd h (by simp)
    · rename_i hl
      simp only [Bool.not_eq_true] at hl
      dsimp only at h
      split at h
      · exact absurd h (by simp)
      · simp only [Outcome.ret.injEq, and_true] at h
        subst h
        obtain ⟨h1, h2, h3⟩ := hinv
        have hp : p ∉ k.space_list.list := by
          intro hm
          obtain ⟨sp', hsp', hl'⟩ := (h3 p).mp hm
          rw [hsp] at hsp'
          simp only [Option.some.injEq] at hsp'
          subst hsp'
          rw [hl] at hl'
          exact absurd hl' (by simp)
        refine ⟨?_, ?_, ?_⟩
        · simp [set_space, list_add_head, h1]
        · exact List.nodup_cons.mpr ⟨hp, h2⟩
        · intro q
          by_cases hq : p = q
          · subst hq
            constructor
            · intro _
              exact ⟨_, space_at_set_space_self k p _ (space_at_lt hsp), rfl⟩
            · intro _
              exact List.mem_cons_self _ _
          · have hne : space_at (set_space k p { sp with linked := true }) q = space_at k q :=
              space_at_set_space_ne k p q _ hq
            constructor
            · intro hm
              have hm' : q ∈ k.space_list.list := by
                rcases List.mem_cons.mp hm with h' | h'
                · exact absurd h'.symm hq
                · exact h'
              obtain ⟨sq, hsq, hlq⟩ := (h3 q).mp hm'
              exact ⟨sq, by rw [← hsq]; exact hne, hlq⟩
            · rintro ⟨sq, hsq, hlq⟩
              have : space_at k q = some sq := by rw [← hne]; exact hsq
              exact List.mem_cons_of_mem _ ((h3 q).mpr ⟨sq, this, hlq⟩)

/-- A returning `address_space_remove` keeps the registry in order. -/
theorem address_space_remove_inv (k k' : Kernel) (p : Nat) (hinv : reg_inv k)
    (h : address_space_remove k p = .ret k' ()) : reg_inv k' := by
  unfold address_space_remove at h
  split at h
  · exact absurd h (by simp)
  · rename_i sp hsp
    split at h
    · exact absurd h (by simp)
    · rename_i hl
      simp only [Bool.not_eq_true, Bool.not_eq_false] at hl
      dsimp only at h
      split at h
      · exact absurd h (by simp)
      · simp only [Outcome.ret.injEq, and_true] at h
        subst h
        obtain ⟨h1, h2, h3⟩ := hinv
        have hp : p ∈ k.space_list.list := (h3 p).mpr ⟨sp, hsp, hl⟩
        refine ⟨?_, ?_, ?_⟩
        · have hlen := List.length_erase_of_mem hp
          have hpos : 0 < k.space_list.list.length := List.length_pos_of_mem hp
          simp only [set_space, hlen, h1]
          omega
        · exact h2.erase p
        · intro q
          by_cases hq : p = q
          · subst hq
            constructor
            · intro hm
              exact absurd hm (by simpa [set_space] using h2.not_mem_erase)
            · rintro ⟨sq, hsq, hlq⟩
              have := space_at_set_space_self
                { k with space_list :=
                    { list := k.space_list.list.erase p, count := k.space_list.count - 1 } }
                p { sp with linked := false } (space_at_lt hsp)
              rw [this] at hsq
              simp only [Option.some.injEq] at hsq
              subst hsq
              exact absurd hlq (by simp)
          · have hne := space_at_set_space_ne
              { k with space_list :=
                  { list := k.space_list.list.erase p, count := k.space_list.count - 1 } }
              p q { sp with linked := false } hq
            have hk : space_at { k with space_list :=
                  { list := k.space_list.list.erase p, count := k.space_list.count - 1 } } q
                = space_at k q := rfl
            have hmem : q ∈ k.space_list.list.erase p ↔ q ∈ k.space_list.list := by
              rw [h2.mem_erase_iff]
              exact ⟨fun h => h.2, fun h => ⟨fun h' => hq h'.symm, h⟩⟩
            constructor
            · intro hm
              obtain ⟨sq, hsq, hlq⟩ := (h3 q).mp (hmem.mp (by simpa [set_space] using hm))
              exact ⟨sq, by rw [hne, hk]; exact hsq, hlq⟩
            · rintro ⟨sq, hsq, hlq⟩
              rw [hne, hk] at hsq
              have := hmem.mpr ((h3 q).mpr ⟨sq, hsq, hlq⟩)
              simpa [set_space] using this
/-- Every returning sequence of registry calls keeps the registry in order. -/
theorem run_reg_ops_inv :
    ∀ (ops : List RegOp) (k0 k : Kernel), reg_inv k0 → run_reg_ops k0 ops = some k →
      reg_inv k := by
  intro ops
  induction ops with
  | nil =>
      intro k0 k h0 h
      simp only [run_reg_ops, Option.some.injEq] at h
      subst h
      exact h0
  | cons op rest ih =>
      intro k0 k h0 h
      unfold run_reg_ops at h
      split at h
      · rename_i k1 u hcall
        refine ih k1 k ?_ h
        cases op with
        | add p => exact address_space_add_inv k0 k1 p h0 hcall
        | remove p => exact address_space_remove_inv k0 k1 p h0 hcall
      · exact absurd h (by simp)
      · exact absurd h (by simp)

/-- C7 (counterexample): the registry is initialised while the list node of
space 1 is linked into another list.  Adding space 0 and then removing space 1
returns without a fatal assertion: `list_empty(&space->list)` fails for the
linked node and the count goes from 1 to 0.  The registry then links space 0
and its count is 0. -/
theorem registry_count_off_after_foreign_remove :
    ∃ k, run_reg_ops (init_address_space_list foreign_link_kernel) [.add 0, .remove 1] = some k
      ∧ k.space_list.list = [0]
      ∧ k.space_list.count = 0
      ∧ k.space_list.count ≠ k.space_list.list.length := by
  refine ⟨_, rfl, rfl, rfl, by decide⟩

/-- C7 (amended): after any sequence of `address_space_add` and
`address_space_remove` calls that returns, run on a registry initialised while
the list node of no space is linked, the count equals the number of spaces linked in the list, no space is linked twice
and the linked spaces are those whose list node is in use; adding a space that
is linked and removing a space that is not linked are fatal and leave the
state as it is. -/
theorem registry_count_matches_linked_spaces (k0 : Kernel) (ops : List RegOp) (k : Kernel)
    (hunlinked : ∀ p sp, space_at k0 p = some sp → sp.linked = false)
    (hrun : run_reg_ops (init_address_space_list k0) ops = some k) :
    k.space_list.count = k.space_list.list.length
      ∧ k.space_list.list.Nodup
      ∧ (∀ p, p ∈ k.space_list.list ↔ ∃ sp, space_at k p = some sp ∧ sp.linked = true)
      ∧ (∀ p ∈ k.space_list.list, address_space_add k p = .fatal k)
      ∧ (∀ p sp, space_at k p = some sp → p ∉ k.space_list.list →
          address_space_remove k p = .fatal k) := by
  have hinit : reg_inv (init_address_space_list k0) := by
    refine ⟨rfl, List.nodup_nil, ?_⟩
    intro p
    constructor
    · intro h
      exact absurd h (List.not_mem_nil p)
    · rintro ⟨sp, hsp, hl⟩
      have : sp.linked = false := hunlinked p sp hsp
      rw [this] at hl
      exact absurd hl (by simp)
  obtain ⟨h1, h2, h3⟩ := run_reg_ops_inv ops _ k hinit hrun
  refine ⟨h1, h2, h3, ?_, ?_⟩
  · intro p hp
    obtain ⟨sp, hsp, hl⟩ := (h3 p).mp hp
    simp [address_space_add, hsp, hl]
  · intro p sp hsp hp
    have hl : sp.linked = false := by
      cases hb : sp.linked with
      | false => rfl
      | true => exact absurd ((h3 p).mpr ⟨sp, hsp, hb⟩) hp
    simp [address_space_remove, hsp, hl]

/-- Witness of C7: spaces 0 and 1 are added, space 0 is removed and space 2 is
added; the registry then links 2 and 1 and counts 2. -/
theorem registry_count_matches_linked_spaces_witness :
    ∃ k, run_reg_ops (init_address_space_list three_spaces)
        [.add 0, .add 1, .remove 0, .add 2] = some k
      ∧ k.space_list.list = [2, 1]
      ∧ k.space_list.count = k.space_list.list.length
      ∧ k.space_list.list.Nodup
      ∧ (∀ p, p ∈ k.space_list.list ↔ ∃ sp, space_at k p = some sp ∧ sp.linked = true)
      ∧ (∀ p ∈ k.space_list.list, address_space_add k p = .fatal k)
      ∧ (∀ p sp, space_at k p = some sp → p ∉ k.space_list.list →
          address_space_remove k p = .fatal k) := by
  refine ⟨_, rfl, rfl, ?_⟩
  refine registry_count_matches_linked_spaces three_spaces
    [.add 0, .add 1, .remove 0, .add 2] _ ?_ rfl
  intro p sp h
  match p, h with
  | 0, h => simp [space_at, three_spaces] at h; subst h; rfl
  | 1, h => simp [space_at, three_spaces] at h; subst h; rfl
  | 2, h => simp [space_at, three_spaces] at h; subst h; rfl
  | n + 3, h => simp [space_at, three_spaces] at h

/-! ### Creation, attachment and deletion of address spaces -/

/-- C8 (evaluation at the failing input): space 0 has been created from
scratch; creating a second space as a copy of it while `copy_user_tables`
fails with -ENOMEM returns the error with the space structure and the
page-table root released, but the id 1 handed out by `id_new` stays in use:
the id pool is not what it was before the call. -/
theorem address_space_create_copy_failure_keeps_id :
    address_space_create (empty_kernel 3) none 0 = .ret created_kernel (.ok 0)
      ∧ address_space_create created_kernel (some 0) (-ENOMEM)
          = .ret { created_kernel with space_ids := [true, true, false] } (.error (-ENOMEM))
      ∧ created_kernel.space_ids = [true, false, false] := by
  refine ⟨rfl, rfl, rfl⟩

/-- Taking the first free slot of a pool and freeing it again restores the pool. -/
theorem first_free_set_restore {α : Type} (x : Option α) :
    ∀ (l : List (Option α)) (p : Nat), first_free l = some p → (l.set p x).set p none = l := by
  intro l
  induction l with
  | nil => intro p h; simp [first_free] at h
  | cons a l ih =>
      intro p h
      cases a with
      | none =>
          simp only [first_free, Option.some.injEq] at h
          subst h
          rfl
      | some v =>
          simp only [first_free, Option.map_eq_some'] at h
          obtain ⟨i, hi, rfl⟩ := h
          simp only [List.set_cons_succ, ih i hi]

/-- The two allocation failures of `address_space_create` leave the kernel as
it was and return the error pointer for -ENOMEM. -/
theorem address_space_create_alloc_failure_restores (k : Kernel) (orig : Option Nat)
    (copy_res : Int) :
    (alloc_space k = none → address_space_create k orig copy_res = .ret k (.error (-ENOMEM)))
      ∧ (∀ k1 space, alloc_space k = some (k1, space) → alloc_pgd k1 = none →
          address_space_create k orig copy_res = .ret k (.error (-ENOMEM))) := by
  constructor
  · intro h
    simp [address_space_create, h]
  · intro k1 space h1 h2
    have hk : free_space k1 space = k := by
      unfold alloc_space at h1
      split at h1
      · exact absurd h1 (by simp)
      · rename_i p hp
        simp only [Option.some.injEq, Prod.mk.injEq] at h1
        obtain ⟨rfl, rfl⟩ := h1
        simp only [free_space, first_free_set_restore _ _ _ hp]
    simp [address_space_create, h1, h2, hk]

/-- An attachment that returns has raised the counter of the space by one,
modulo 2^32. -/
theorem address_space_attach_refs (k k' : Kernel) (t space : Nat)
    (h : address_space_attach k t space = .ret k' ()) :
    ∃ sp, space_at k space = some sp
      ∧ space_at k' space = some { sp with ktcb_refs := (sp.ktcb_refs + 1) % WORD } := by
  unfold address_space_attach at h
  split at h
  · rename_i tcb sp _ hsp
    simp only [Outcome.ret.injEq, and_true] at h
    subst h
    exact ⟨sp, hsp, space_at_set_space_self _ space _ (space_at_lt hsp)⟩
  · exact absurd h (by simp)

/-- Counting one attachment and then `n` more is counting `n + 1`, modulo 2^32. -/
theorem word_succ_add (r n : Nat) : ((r + 1) % WORD + n) % WORD = (r + (n + 1)) % WORD := by
  rw [Nat.mod_add_mod, Nat.add_assoc, Nat.add_comm 1 n]

/-- Attaching the threads of a list raises the counter, which starts below
2^32, by the length of the list, modulo 2^32. -/
theorem attach_all_refs (space : Nat) :
    ∀ (ts : List Nat) (k k' : Kernel) (sp : address_space), attach_all k ts space = some k' →
      space_at k space = some sp → sp.ktcb_refs < WORD →
      space_at k' space = some { sp with ktcb_refs := (sp.ktcb_refs + ts.length) % WORD } := by
  intro ts
  induction ts with
  | nil =>
      intro k k' sp h hsp hlt
      simp only [attach_all, Option.some.injEq] at h
      subst h
      rw [hsp, List.length_nil, Nat.add_zero, Nat.mod_eq_of_lt hlt]
  | cons t rest ih =>
      intro k k' sp h hsp hlt
      unfold attach_all at h
      split at h
      · rename_i k1 u hcall
        obtain ⟨sp1, h1, h2⟩ := address_space_attach_refs k k1 t space hcall
        rw [hsp] at h1
        simp only [Option.some.injEq] at h1
        subst h1
        have hstep := ih k1 k' _ h h2 (Nat.mod_lt _ (by decide))
        rw [hstep]
        simp only [List.length_cons, Option.some.injEq, address_space.mk.injEq, true_and,
          and_true]
        exact word_succ_add _ _
      · exact absurd h (by simp)
      · exact absurd h (by simp)

/-- Attaching one thread `n` times over, `n` not zero, returns: the thread is
attached and the counter of the space has gone up by `n`, modulo 2^32. -/
theorem attach_all_replicate (t space : Nat) :
    ∀ (n : Nat) (k : Kernel) (tc : ktcb) (sp : address_space),
      k.tasks[t]? = some tc → space_at k space = some sp →
      attach_all k (List.replicate (n + 1) t) space
        = some { k with
            tasks := k.tasks.set t { tc with space := some space },
            spaces := k.spaces.set space
              (some { sp with ktcb_refs := (sp.ktcb_refs + (n + 1)) % WORD }) } := by
  intro n
  induction n with
  | zero =>
      intro k tc sp ht hsp
      simp [List.replicate, attach_all, address_space_attach, ht, hsp, set_space]
  | succ n ih =>
      intro k tc sp ht hsp
      have hlt : space < k.spaces.length := space_at_lt hsp
      have htl : t < k.tasks.length := (List.getElem?_eq_some.mp ht).1
      rw [List.replicate_succ]
      unfold attach_all
      have hcall : address_space_attach k t space
          = .ret { k with
              tasks := k.tasks.set t { tc with space := some space },
              spaces := k.spaces.set space
                (some { sp with ktcb_refs := (sp.ktcb_refs + 1) % WORD }) } () := by
        simp [address_space_attach, ht, hsp, set_space]
      rw [hcall]
      dsimp only
      rw [ih _ { tc with space := some space } { sp with ktcb_refs := (sp.ktcb_refs + 1) % WORD }
        (by simp [List.getElem?_set_self htl])
        (by simp [space_at, List.getElem?_set_self hlt])]
      simp only [List.set_set, word_succ_add]

/-- A sequence of attachments that returns starts on a pointer designating a space. -/
theorem attach_all_space (space : Nat) (t : Nat) (rest : List Nat) (k k' : Kernel)
    (h : attach_all k (t :: rest) space = some k') : ∃ sp, space_at k space = some sp := by
  unfold attach_all at h
  split at h
  · rename_i k1 u hcall
    obtain ⟨sp, hsp, _⟩ := address_space_attach_refs k k1 t space hcall
    exact ⟨sp, hsp⟩
  · exact absurd h (by simp)
  · exact absurd h (by simp)

/-- The first free slot of a pool lies inside the pool. -/
theorem first_free_lt {α : Type} :
    ∀ (l : List (Option α)) (p : Nat), first_free l = some p → p < l.length := by
  intro l
  induction l with
  | nil => intro p h; simp [first_free] at h
  | cons a l ih =>
      intro p h
      cases a with
      | none =>
          simp only [first_free, Option.some.injEq] at h
          subst h
          simp
      | some v =>
          simp only [first_free, Option.map_eq_some'] at h
          obtain ⟨i, hi, rfl⟩ := h
          have := ih i hi
          simp only [List.length_cons]
          omega

/-- The collaborators of `address_space_create` that deal with page tables and
ids leave the space structures alone. -/
theorem create_steps_spaces (k : Kernel) (pgd space o : Nat) (res : Int) :
    (copy_pgd_kern_all k pgd).spaces = k.spaces ∧ (id_new k).1.spaces = k.spaces
      ∧ (copy_user_tables k space o res).1.spaces = k.spaces := by
  refine ⟨?_, ?_, ?_⟩
  · unfold copy_pgd_kern_all
    split <;> rfl
  · unfold id_new
    split <;> rfl
  · unfold copy_user_tables
    split
    · rfl
    · split
      · split <;> rfl
      · rfl

/-- A space that `address_space_create` returns has no thread attached and an
unlinked list node. -/
theorem address_space_create_fresh (k k' : Kernel) (orig : Option Nat) (copy_res : Int)
    (space : Nat) (h : address_space_create k orig copy_res = .ret k' (.ok space)) :
    ∃ sp, space_at k' space = some sp ∧ sp.ktcb_refs = 0 ∧ sp.linked = false := by
  unfold address_space_create at h
  split at h
  · exact absurd h (by simp)
  · rename_i k1 space1 halloc
    split at h
    · exact absurd h (by simp)
    · rename_i k2 pgd hpgd
      split at h
      · exact absurd h (by simp)
      · rename_i sp hsp
        have hz : sp.ktcb_refs = 0 := by
          unfold alloc_pgd at hpgd
          split at hpgd
          · exact absurd hpgd (by simp)
          · simp only [Option.some.injEq, Prod.mk.injEq] at hpgd
            obtain ⟨rfl, _⟩ := hpgd
            unfold alloc_space at halloc
            split at halloc
            · exact absurd halloc (by simp)
            · rename_i p hp
              simp only [Option.some.injEq, Prod.mk.injEq] at halloc
              obtain ⟨rfl, rfl⟩ := halloc
              have hlt : p < k.spaces.length := first_free_lt _ _ hp
              simp [space_at, List.getElem?_set_self hlt] at hsp
              subst hsp
              rfl
        have hlt : space1 < k2.spaces.length := space_at_lt hsp
        have hfin : ∀ (k4 : Kernel) (id : Int), k4.spaces.length = k2.spaces.length →
            ∃ sp', space_at (set_space k4 space1
              { spid := id, pgd := some pgd, ktcb_refs := sp.ktcb_refs, linked := false }) space1
              = some sp' ∧ sp'.ktcb_refs = 0 ∧ sp'.linked = false :=
          fun k4 id hlen =>
            ⟨_, space_at_set_space_self k4 space1 _ (by rw [hlen]; exact hlt), hz, rfl⟩
        have hlen3 : (id_new (copy_pgd_kern_all (set_space k2 space1
            { spid := sp.spid, pgd := some pgd, ktcb_refs := sp.ktcb_refs, linked := false })
            pgd)).1.spaces.length = k2.spaces.length := by
          rw [(create_steps_spaces _ 0 0 0 0).2.1, (create_steps_spaces _ pgd 0 0 0).1]
          simp [set_space]
        dsimp only at h
        split at h
        · rename_i o
          split at h
          · exact absurd h (by simp)
          · simp only [Outcome.ret.injEq, Except.ok.injEq] at h
            obtain ⟨rfl, rfl⟩ := h
            have hs : ∀ kx : Kernel, space_at (copy_user_tables kx space1 o copy_res).1 space1
                = space_at kx space1 := by
              intro kx
              unfold space_at
              rw [(create_steps_spaces kx 0 space1 o copy_res).2.2]
            rw [hs]
            exact hfin _ _ hlen3
        · simp only [Outcome.ret.injEq, Except.ok.injEq] at h
          obtain ⟨rfl, rfl⟩ := h
          exact hfin _ _ hlen3

/-- C9 (counterexample): space 0 is created from scratch and thread 1 is
attached to it 2^32 times over.  Every attachment returns; the 32-bit counter
of the space has wrapped to 0, so `address_space_delete` passes its `BUG_ON`,
releases the space and returns. -/
theorem address_space_deleted_after_wrapped_attaches :
    address_space_create (empty_kernel 3) none 0 = .ret created_kernel (.ok 0)
      ∧ (List.replicate WORD 1).length = WORD
      ∧ ∃ k2 k3, attach_all created_kernel (List.replicate WORD 1) 0 = some k2
          ∧ k2.tasks = [{ space := none }, { space := some 0 }, { space := none }]
          ∧ (∃ sp, space_at k2 0 = some sp ∧ sp.ktcb_refs = 0)
          ∧ address_space_delete k2 0 = .ret k3 () := by
  have h := attach_all_replicate 1 0 (WORD - 1) created_kernel { space := none }
    { spid := 0, pgd := some 0, ktcb_refs := 0, linked := false } rfl rfl
  have hw : WORD - 1 + 1 = WORD := by decide
  have hz : (0 + WORD) % WORD = 0 := by rw [Nat.zero_add, Nat.mod_self]
  rw [hw] at h
  dsimp only at h
  rw [hz] at h
  exact ⟨rfl, List.length_replicate _ _, _, _, h, rfl, ⟨_, rfl, rfl⟩, rfl⟩

/-- C9 (amended): `address_space_attach` sets the thread's space and raises the
attachment counter of the space by exactly one modulo 2^32, changing nothing
else; `address_space_delete` stops in its `BUG_ON` with nothing released when
the counter is not zero, and when it returns the counter was zero and the page
tables, the id and the structure have been released; so after attaching a
non-empty list of fewer than 2^32 threads to a space just created, the counter
is the number of attachments and `address_space_delete` is fatal. -/
theorem address_space_not_deleted_while_attached :
    (∀ (k : Kernel) (tcb space : Nat) (t : ktcb) (sp : address_space),
        k.tasks[tcb]? = some t → space_at k space = some sp →
        address_space_attach k tcb space
          = .ret { k with
              tasks := k.tasks.set tcb { t with space := some space },
              spaces := k.spaces.set space
                (some { sp with ktcb_refs := (sp.ktcb_refs + 1) % WORD }) } ())
    ∧ (∀ (k : Kernel) (space : Nat) (sp : address_space), space_at k space = some sp →
        sp.ktcb_refs ≠ 0 → address_space_delete k space = .fatal k)
    ∧ (∀ (k k' : Kernel) (space : Nat), address_space_delete k space = .ret k' () →
        ∃ sp k1, space_at k space = some sp ∧ sp.ktcb_refs = 0
          ∧ id_del (delete_page_tables k space) sp.spid = .ret k1 ()
          ∧ k' = free_space k1 space)
    ∧ (∀ (k0 k1 k2 : Kernel) (orig : Option Nat) (copy_res : Int) (space : Nat) (ts : List Nat),
        address_space_create k0 orig copy_res = .ret k1 (.ok space) → ts ≠ [] →
        ts.length < WORD →
        attach_all k1 ts space = some k2 →
        (∃ sp, space_at k2 space = some sp ∧ sp.ktcb_refs = ts.length)
          ∧ address_space_delete k2 space = .fatal k2) := by
  refine ⟨?_, ?_, ?_, ?_⟩
  · intro k tcb space t sp ht hsp
    simp [address_space_attach, ht, hsp, set_space]
  · intro k space sp hsp hrefs
    simp [address_space_delete, hsp, hrefs]
  · intro k k' space h
    unfold address_space_delete at h
    split at h
    · exact absurd h (by simp)
    · rename_i sp hsp
      split at h
      · exact absurd h (by simp)
      · rename_i hrefs
        dsimp only at h
        split at h
        · exact absurd h (by simp)
        · exact absurd h (by simp)
        · rename_i k1 u hid
          simp only [Outcome.ret.injEq, and_true] at h
          exact ⟨sp, k1, hsp, by simpa using hrefs, hid, h.symm⟩
  · intro k0 k1 k2 orig copy_res space ts hcreate hts hlen hatt
    obtain ⟨sp, hsp, hz, _⟩ := address_space_create_fresh k0 k1 orig copy_res space hcreate
    have h2 := attach_all_refs space ts k1 k2 sp hatt hsp (by rw [hz]; decide)
    have hpos : 0 < ts.length := List.length_pos.mpr hts
    have hmod : (sp.ktcb_refs + ts.length) % WORD = ts.length := by
      rw [hz, Nat.zero_add, Nat.mod_eq_of_lt hlen]
    rw [hmod] at h2
    refine ⟨⟨_, h2, rfl⟩, ?_⟩
    have hne : ts.length ≠ 0 := by omega
    simp [address_space_delete, h2, hne]

/-- Witness of C9: space 0 is created from scratch, threads 1 and 2 are
attached to it; the counter is 2 and deleting the space is fatal. -/
theorem address_space_not_deleted_while_attached_witness :
    address_space_create (empty_kernel 3) none 0 = .ret created_kernel (.ok 0)
      ∧ ∃ k2, attach_all created_kernel [1, 2] 0 = some k2
        ∧ (∃ sp, space_at k2 0 = some sp ∧ sp.ktcb_refs = [1, 2].length)
        ∧ address_space_delete k2 0 = .fatal k2 := by
  refine ⟨rfl, _, rfl, ?_⟩
  exact address_space_not_deleted_while_attached.2.2.2 (empty_kernel 3) created_kernel _ none 0 0
    [1, 2] rfl (by simp) (by decide) rfl

/-- With no thread attached, `address_space_delete` completes: the created
space 0 is deleted, its id returned and its structure freed. -/
theorem address_space_delete_unattached :
    address_space_delete created_kernel 0
      = .ret { created_kernel with spaces := [none, none, none],
                                   space_ids := [false, false, false] } () := by
  rfl

/-! ### `check_access` -/

/-- C10: `check_access` returns -EINVAL without calling `check_mapping` or the
pager when size >= USER_AREA_SIZE; otherwise 0 after the one call of
`check_mapping` when the page-rounded range is mapped; otherwise, when
`page_in` is set, the pager's result if that is negative and 0 if it is not;
otherwise -EFAULT without calling the pager.  Hence it returns 0 exactly when
size < USER_AREA_SIZE and the range is mapped or `page_in` is set and the
page-in request does not fail. -/
theorem check_access_result (check_mapping pager_pagein_request : Nat → Nat → Nat → Int)
    (vaddr size flags : Nat) (page_in : Int) :
    (USER_AREA_SIZE ≤ size →
        check_access check_mapping pager_pagein_request vaddr size flags page_in = (-EINVAL, []))
    ∧ (size < USER_AREA_SIZE →
        check_mapping (check_access_range vaddr size).1 (check_access_range vaddr size).2 flags ≠ 0 →
        check_access check_mapping pager_pagein_request vaddr size flags page_in
          = (0, [.check_mapping (check_access_range vaddr size).1
                    (check_access_range vaddr size).2 flags]))
    ∧ (size < USER_AREA_SIZE →
        check_mapping (check_access_range vaddr size).1 (check_access_range vaddr size).2 flags = 0 →
        page_in ≠ 0 →
        pager_pagein_request (check_access_range vaddr size).1 (check_access_range vaddr size).2
          flags < 0 →
        check_access check_mapping pager_pagein_request vaddr size flags page_in
          = (pager_pagein_request (check_access_range vaddr size).1
                (check_access_range vaddr size).2 flags,
             [.check_mapping (check_access_range vaddr size).1
                (check_access_range vaddr size).2 flags,
              .pager_pagein_request (check_access_range vaddr size).1
                (check_access_range vaddr size).2 flags]))
    ∧ (size < USER_AREA_SIZE →
        check_mapping (check_access_range vaddr size).1 (check_access_range vaddr size).2 flags = 0 →
        page_in ≠ 0 →
        0 ≤ pager_pagein_request (check_access_range vaddr size).1
          (check_access_range vaddr size).2 flags →
        check_access check_mapping pager_pagein_request vaddr size flags page_in
          = (0, [.check_mapping (check_access_range vaddr size).1
                    (check_access_range vaddr size).2 flags,
                 .pager_pagein_request (check_access_range vaddr size).1
                    (check_access_range vaddr size).2 flags]))
    ∧ (size < USER_AREA_SIZE →
        check_mapping (check_access_range vaddr size).1 (check_access_range vaddr size).2 flags = 0 →
        page_in = 0 →
        check_access check_mapping pager_pagein_request vaddr size flags page_in
          = (-EFAULT, [.check_mapping (check_access_range vaddr size).1
                          (check_access_range vaddr size).2 flags]))
    ∧ ((check_access check_mapping pager_pagein_request vaddr size flags page_in).1 = 0 ↔
        size < USER_AREA_SIZE ∧
          (check_mapping (check_access_range vaddr size).1 (check_access_range vaddr size).2
              flags ≠ 0
            ∨ (page_in ≠ 0 ∧
                0 ≤ pager_pagein_request (check_access_range vaddr size).1
                  (check_access_range vaddr size).2 flags))) := by
  have hE : (-EINVAL : Int) ≠ 0 := by decide
  have hF : (-EFAULT : Int) ≠ 0 := by decide
  refine ⟨?_, ?_, ?_, ?_, ?_, ?_⟩
  · intro h
    simp [check_access, h]
  · intro h hm
    have h' : ¬ (USER_AREA_SIZE ≤ size) := by omega
    simp [check_access, h', hm]
  · intro h hm hp hr
    have h' : ¬ (USER_AREA_SIZE ≤ size) := by omega
    simp [check_access, h', hm, hp, hr]
  · intro h hm hp hr
    have h' : ¬ (USER_AREA_SIZE ≤ size) := by omega
    have hr' : ¬ (pager_pagein_request (check_access_range vaddr size).1
        (check_access_range vaddr size).2 flags < 0) := by omega
    simp [check_access, h', hm, hp, hr']
  · intro h hm hp
    have h' : ¬ (USER_AREA_SIZE ≤ size) := by omega
    simp [check_access, h', hm, hp]
  · unfold check_access
    by_cases h : USER_AREA_SIZE ≤ size
    · have h2 : ¬ (size < USER_AREA_SIZE) := by omega
      simp [h, h2, hE]
    · have h2 : size < USER_AREA_SIZE := by omega
      by_cases hm : check_mapping (check_access_range vaddr size).1
          (check_access_range vaddr size).2 flags = 0
      · by_cases hp : page_in = 0
        · simp [h, h2, hm, hp, hF]
        · by_cases hr : pager_pagein_request (check_access_range vaddr size).1
              (check_access_range vaddr size).2 flags < 0
          · have hr0 : pager_pagein_request (check_access_range vaddr size).1
                (check_access_range vaddr size).2 flags ≠ 0 := by omega
            simp [h, h2, hm, hp, hr, hr0]
          · have hr1 : 0 ≤ pager_pagein_request (check_access_range vaddr size).1
                (check_access_range vaddr size).2 flags := by omega
            simp [h, h2, hm, hp, hr, hr1]
      · simp [h, h2, hm]

/-! ### Descriptor bounds, seeking and reading at the end -/

/-- C11 (evaluation at the failing inputs): the descriptor table of task 5 has
TASK_FILES_MAX slots.  With fd = TASK_FILES_MAX, `sys_read`, `sys_write`,
`sys_lseek` and `vfs_receive_sys_open` do not reject the request: each goes on
to the entry `t->fd[TASK_FILES_MAX]`, one behind the table.  `sys_lseek` does
so for fd = -1 as well. -/
theorem descriptor_bound_off_by_one :
    (one_file_state 8192 0 []).tasks.map (fun t => t.fd.length) = [TASK_FILES_MAX]
      ∧ sys_read resident_page_in (one_file_state 8192 0 []) 5 TASK_FILES_MAX 10
          = .wild (one_file_state 8192 0 [])
      ∧ sys_write resident_page_in (alloc_page_at 1048576) (one_file_state 8192 0 []) 5
          TASK_FILES_MAX 10 = .wild (one_file_state 8192 0 [])
      ∧ sys_lseek (one_file_state 8192 0 []) 5 TASK_FILES_MAX 0 SEEK_SET
          = .wild (one_file_state 8192 0 [])
      ∧ sys_lseek (one_file_state 8192 0 []) 5 (-1) 0 SEEK_SET
          = .wild (one_file_state 8192 0 [])
      ∧ ∀ stray, vfs_receive_sys_open stray true (one_file_state 8192 0 []) VFS_TID 5
          TASK_FILES_MAX 7 8192 = .wild (one_file_state 8192 0 []) := by
  refine ⟨rfl, rfl, rfl, rfl, rfl, fun _ => rfl⟩

/-- C16 (evaluation at the failing input): the file has the tracked length 100,
the cursor of descriptor 0 is 100 and the cache holds page 0.  Reading 10 bytes
requests no page, yet `read_cache_pages` finds page 0 and copies the 10 bytes
behind byte 100 of it: `sys_read` returns 10 and moves the cursor to 110. -/
theorem sys_read_at_length_copies :
    ∃ s, sys_read resident_page_in (one_file_state 100 100 [0]) 5 0 10
        = .ret s ({ ret := 10, ipc := none },
                  [{ dst := 0, page := mk_page 0 none 0, src := 100, len := 10 }])
      ∧ s.pagein_calls = []
      ∧ (s.tasks[0]?).bind (fun t => fd_slot t 0)
          = some { vnum := 7, cursor := 110, vmfile := some 0 } := by
  refine ⟨_, rfl, rfl, rfl⟩

/-- C17: an open notification whose sender is not the filesystem service
returns -EPERM and leaves the whole state as it was: no descriptor is written,
no object is created or linked, no reference is counted. -/
theorem vfs_receive_sys_open_rejects_other_senders (stray : StrayRead) (mem_ok : Bool)
    (s : State) (sender opener fd : Int) (vnum length : Nat) (h : sender ≠ VFS_TID) :
    vfs_receive_sys_open stray mem_ok s sender opener fd vnum length = .ret s (-EPERM) := by
  simp [vfs_receive_sys_open, h]

/-- Witness of C17: task 5 itself sends the notification. -/
theorem vfs_receive_sys_open_rejects_other_senders_witness :
    (5 : Int) ≠ VFS_TID
      ∧ vfs_receive_sys_open stray_no_match true two_task_state 5 5 0 7 8192
          = .ret two_task_state (-EPERM) :=
  ⟨by decide, vfs_receive_sys_open_rejects_other_senders stray_no_match true two_task_state
    5 5 0 7 8192 (by decide)⟩

/-- C12 (counterexample): with the cursor at 10 and the offset -1, a `SEEK_CUR`
call and a `SEEK_END` call both return -EINVAL and leave the cursor at 10. -/
theorem sys_lseek_negative_seek_cur_rejected :
    sys_lseek (one_file_state 8192 10 []) 5 0 (-1) SEEK_CUR
        = .ret (one_file_state 8192 10 []) (-EINVAL)
      ∧ sys_lseek (one_file_state 8192 10 []) 5 0 (-1) SEEK_END
        = .ret (one_file_state 8192 10 []) (-EINVAL) := by
  refine ⟨rfl, rfl⟩

/-- C12 (amended): `sys_lseek` rejects a negative offset whatever `whence` is:
for every state (so every cursor and tracked length), every known sender and
every negative offset, the call returns -EINVAL and leaves the state, the
cursor included, as it was. -/
theorem sys_lseek_rejects_negative_offset (s : State) (sender fd offset whence : Int) (ti : Nat)
    (htask : find_task s.tasks sender = some ti) (hneg : offset < 0) :
    sys_lseek s sender fd offset whence = .ret s (-EINVAL) := by
  simp [sys_lseek, htask, hneg]

/-- Witness of C12 (amended): `SEEK_END` with the offset -4096. -/
theorem sys_lseek_rejects_negative_offset_witness :
    sys_lseek (one_file_state 8192 10 []) 5 0 (-4096) SEEK_END
      = .ret (one_file_state 8192 10 []) (-EINVAL) :=
  sys_lseek_rejects_negative_offset (one_file_state 8192 10 []) 5 0 (-4096) SEEK_END 0 rfl
    (by decide)

/-- C13: for a known sender, `sys_lseek` returns -EINVAL and leaves the state,
the cursor included, as it was when `whence` is `SEEK_SET` and the offset is
negative, and when `whence` is none of `SEEK_SET`, `SEEK_CUR`, `SEEK_END`,
whatever the offset. -/
theorem sys_lseek_invalid_argument (s : State) (sender fd offset whence : Int) (ti : Nat)
    (htask : find_task s.tasks sender = some ti)
    (h : (whence = SEEK_SET ∧ offset < 0)
      ∨ (whence ≠ SEEK_SET ∧ whence ≠ SEEK_CUR ∧ whence ≠ SEEK_END)) :
    sys_lseek s sender fd offset whence = .ret s (-EINVAL) := by
  rcases h with ⟨_, hneg⟩ | ⟨h1, h2, h3⟩
  · simp [sys_lseek, htask, hneg]
  · by_cases hneg : offset < 0
    · simp [sys_lseek, htask, hneg]
    · simp [sys_lseek, htask, hneg, h1, h2, h3]

/-- Witness of C13: `SEEK_SET` with the offset -1, and the unknown `whence` 3
with the offset 4. -/
theorem sys_lseek_invalid_argument_witness :
    sys_lseek (one_file_state 8192 10 []) 5 0 (-1) SEEK_SET
        = .ret (one_file_state 8192 10 []) (-EINVAL)
      ∧ sys_lseek (one_file_state 8192 10 []) 5 0 4 3
        = .ret (one_file_state 8192 10 []) (-EINVAL) :=
  ⟨sys_lseek_invalid_argument (one_file_state 8192 10 []) 5 0 (-1) SEEK_SET 0 rfl
      (Or.inl ⟨rfl, by decide⟩),
   sys_lseek_invalid_argument (one_file_state 8192 10 []) 5 0 4 3 0 rfl
      (Or.inr ⟨by decide, by decide, by decide⟩)⟩

/-- What a descriptor read through `bound_file` consists of. -/
theorem bound_file_parts {s : State} {ti : Nat} {fd : Int} {d : file_descriptor} {fa : Nat}
    {f : vm_file} (h : bound_file s ti fd = some (d, fa, f)) :
    ∃ t, s.tasks[ti]? = some t ∧ fd_slot t fd = some d ∧ d.vmfile = some fa
      ∧ s.files[fa]? = some f := by
  unfold bound_file at h
  split at h
  · exact absurd h (by simp)
  · rename_i t ht
    split at h
    · exact absurd h (by simp)
    · rename_i d' hd
      split at h
      · exact absurd h (by simp)
      · rename_i fa' hfa
        split at h
        · exact absurd h (by simp)
        · rename_i f' hf
          simp only [Option.some.injEq, Prod.mk.injEq] at h
          obtain ⟨h1, h2, h3⟩ := h
          subst h1; subst h2; subst h3
          exact ⟨t, ht, hd, hfa, hf⟩

/-- Reading back the descriptor just stored. -/
theorem fd_slot_set_fd (s : State) (ti : Nat) (fd : Int) (t : tcb) (d d' : file_descriptor)
    (ht : s.tasks[ti]? = some t) (hd : fd_slot t fd = some d) :
    ∃ t', (set_fd s ti fd d').tasks[ti]? = some t' ∧ fd_slot t' fd = some d' := by
  refine ⟨{ t with fd := t.fd.set fd.toNat d' }, ?_, ?_⟩
  · simp [set_fd, List.getElem?_modify_eq, ht]
  · unfold fd_slot at hd ⊢
    split at hd
    · exact absurd hd (by simp)
    · rename_i hneg
      have hlt : fd.toNat < t.fd.length := (List.getElem?_eq_some.mp hd).1
      simp [hneg, List.getElem?_set_self hlt]

/-- Storing a descriptor with the same file pointer keeps the descriptor bound
to the same, unchanged file object. -/
theorem bound_file_set_fd (s : State) (ti : Nat) (fd : Int) (d d' : file_descriptor) (fa : Nat)
    (f : vm_file) (h : bound_file s ti fd = some (d, fa, f)) (hv : d'.vmfile = d.vmfile) :
    bound_file (set_fd s ti fd d') ti fd = some (d', fa, f) := by
  obtain ⟨t, ht, hd, hfa, hf⟩ := bound_file_parts h
  obtain ⟨t', ht', hd'⟩ := fd_slot_set_fd s ti fd t d d' ht hd
  have hfiles : (set_fd s ti fd d').files[fa]? = some f := hf
  unfold bound_file
  simp only [ht', hd', hv, hfa, hfiles]

/-- C14 (counterexample): with the cursor at 2^32 - 1, a `SEEK_CUR` call with
the offset 1 returns 0 and leaves the cursor at 0, not at c + o = 2^32. -/
theorem sys_lseek_cursor_wraps :
    ∃ s, sys_lseek (one_file_state 8192 4294967295 []) 5 0 1 SEEK_CUR = .ret s 0
      ∧ (s.tasks[0]?).bind (fun t => fd_slot t 0)
          = some { vnum := 7, cursor := 0, vmfile := some 0 }
      ∧ 4294967295 + 1 ≠ 0 := by
  refine ⟨_, rfl, rfl, by decide⟩

/-- C14 (amended): for a known sender, a descriptor bound to a file object and
an offset o >= 0, `sys_lseek` returns 0 and stores, as the only change of the
state, the cursor o for `SEEK_SET`, c + o for `SEEK_CUR` and L + o for
`SEEK_END`, each modulo 2^32; the descriptor then still carries its
identifier and is bound to the same object with the same contents and length.
With the offset 0, `SEEK_END` makes the cursor equal to the tracked length. -/
theorem sys_lseek_sets_cursor (s : State) (sender fd offset : Int) (ti fa : Nat)
    (d : file_descriptor) (f : vm_file)
    (htask : find_task s.tasks sender = some ti)
    (hbound : bound_file s ti fd = some (d, fa, f))
    (hoff : 0 ≤ offset) :
    sys_lseek s sender fd offset SEEK_SET
        = .ret (set_fd s ti fd { d with cursor := offset.toNat % WORD }) 0
      ∧ sys_lseek s sender fd offset SEEK_CUR
        = .ret (set_fd s ti fd { d with cursor := (d.cursor + offset.toNat) % WORD }) 0
      ∧ sys_lseek s sender fd offset SEEK_END
        = .ret (set_fd s ti fd { d with cursor := (f.length + offset.toNat) % WORD }) 0
      ∧ (∀ c', bound_file (set_fd s ti fd { d with cursor := c' }) ti fd
          = some ({ vnum := d.vnum, cursor := c', vmfile := d.vmfile }, fa, f))
      ∧ (∀ c', (set_fd s ti fd { d with cursor := c' }).files = s.files)
      ∧ (offset = 0 → f.length < WORD →
          sys_lseek s sender fd offset SEEK_END
            = .ret (set_fd s ti fd { d with cursor := f.length }) 0) := by
  obtain ⟨t, ht, hd, hfa, hf⟩ := bound_file_parts hbound
  have hneg : ¬ (offset < 0) := by omega
  have hslot : (s.tasks[ti]?).bind (fun t => fd_slot t fd) = some d := by
    simp [ht, hd]
  have hset : SEEK_SET ≠ SEEK_CUR ∧ SEEK_SET ≠ SEEK_END ∧ SEEK_CUR ≠ SEEK_END := by decide
  have hcur : ¬ (SEEK_CUR = SEEK_SET) := by decide
  have hend : ¬ (SEEK_END = SEEK_SET) ∧ ¬ (SEEK_END = SEEK_CUR) := by decide
  have hS : sys_lseek s sender fd offset SEEK_END
      = .ret (set_fd s ti fd { d with cursor := (f.length + offset.toNat) % WORD }) 0 := by
    unfold sys_lseek
    simp only [htask, hneg, if_false, hend.1, hend.2, if_true, hbound]
  refine ⟨?_, ?_, hS, ?_, ?_, ?_⟩
  · unfold sys_lseek
    simp only [htask, hneg, if_false, if_true, hslot]
  · unfold sys_lseek
    simp only [htask, hneg, if_false, hcur, if_true, hslot]
  · intro c'
    exact bound_file_set_fd s ti fd d _ fa f hbound rfl
  · intro c'
    rfl
  · intro h0 hL
    rw [hS, h0]
    have : (f.length + (0 : Int).toNat) % WORD = f.length := by
      simp only [Int.toNat_zero, Nat.add_zero]
      exact Nat.mod_eq_of_lt hL
    rw [this]

/-- Witness of C14 (amended): descriptor 0 of task 5, cursor 10, length 8192,
offset 4. -/
theorem sys_lseek_sets_cursor_witness :
    sys_lseek (one_file_state 8192 10 []) 5 0 4 SEEK_SET
        = .ret (set_fd (one_file_state 8192 10 []) 0 0
            { vnum := 7, cursor := (4 : Int).toNat % WORD, vmfile := some 0 }) 0
      ∧ sys_lseek (one_file_state 8192 10 []) 5 0 4 SEEK_CUR
        = .ret (set_fd (one_file_state 8192 10 []) 0 0
            { vnum := 7, cursor := (10 + (4 : Int).toNat) % WORD, vmfile := some 0 }) 0
      ∧ sys_lseek (one_file_state 8192 10 []) 5 0 4 SEEK_END
        = .ret (set_fd (one_file_state 8192 10 []) 0 0
            { vnum := 7, cursor := (8192 + (4 : Int).toNat) % WORD, vmfile := some 0 }) 0 := by
  have h := sys_lseek_sets_cursor (one_file_state 8192 10 []) 5 0 4 0 0
    { vnum := 7, cursor := 10, vmfile := some 0 }
    { type := VM_FILE_VFS, vnum := 7, length := 8192, vm_obj := vmo_of_offsets [] }
    rfl rfl (by decide)
  exact ⟨h.1, h.2.1, h.2.2.1⟩

/-! ### `read_file_pages` -/

/-- Successes over `j + m` offsets are successes over the first `j` followed by
successes over the next `m`. -/
theorem page_in_all_add (page_in : vm_object → Nat → PageIn) :
    ∀ (j m start : Nat) (vmo : vm_object),
      page_in_all page_in (j + m) start vmo
        = (page_in_all page_in j start vmo).bind (page_in_all page_in m (start + j)) := by
  intro j
  induction j with
  | zero => intro m start vmo; simp [page_in_all]
  | succ j ih =>
      intro m start vmo
      have h : j + 1 + m = (j + m) + 1 := by omega
      rw [h]
      simp only [page_in_all]
      cases page_in vmo start with
      | page v =>
          simp only []
          rw [ih m (start + 1) v]
          have : start + 1 + j = start + (j + 1) := by omega
          rw [this]
      | error e => simp

/-- The loop of `read_file_pages`: it calls `page_in` for `k` consecutive
offsets from `f_offset` on, and either all `todo` calls succeed and it yields
0, or the call number `k` is the first that fails and it yields its code. -/
theorem read_file_pages_loop_spec (page_in : vm_object → Nat → PageIn) :
    ∀ (todo f_offset : Nat) (vmo : vm_object) (log : List Nat),
      ∃ k, k ≤ todo
        ∧ (read_file_pages_loop page_in todo f_offset vmo log).2.1
            = log ++ List.range' f_offset k
        ∧ (((read_file_pages_loop page_in todo f_offset vmo log).2.2 = 0 ∧ k = todo
              ∧ page_in_all page_in todo f_offset vmo
                  = some (read_file_pages_loop page_in todo f_offset vmo log).1)
            ∨ (∃ j e v, k = j + 1 ∧ page_in_all page_in j f_offset vmo = some v
                ∧ page_in v (f_offset + j) = .error e
                ∧ (read_file_pages_loop page_in todo f_offset vmo log).2.2 = Int.negSucc e
                ∧ (read_file_pages_loop page_in todo f_offset vmo log).1 = v)) := by
  intro todo
  induction todo with
  | zero =>
      intro f_offset vmo log
      exact ⟨0, le_refl 0, by simp [read_file_pages_loop], Or.inl ⟨rfl, rfl, rfl⟩⟩
  | succ todo ih =>
      intro f_offset vmo log
      cases hp : page_in vmo f_offset with
      | error e =>
          refine ⟨1, by omega, ?_, Or.inr ⟨0, e, vmo, rfl, rfl, ?_, ?_, ?_⟩⟩
          · simp [read_file_pages_loop, hp]
          · simpa using hp
          · simp [read_file_pages_loop, hp]
          · simp [read_file_pages_loop, hp]
      | page v =>
          obtain ⟨k, hk, hlog, hres⟩ := ih (f_offset + 1) v (log ++ [f_offset])
          have hloop : read_file_pages_loop page_in (todo + 1) f_offset vmo log
              = read_file_pages_loop page_in todo (f_offset + 1) v (log ++ [f_offset]) := by
            simp [read_file_pages_loop, hp]
          refine ⟨k + 1, by omega, ?_, ?_⟩
          · rw [hloop, hlog, List.range'_succ]
            simp
          · rw [hloop]
            rcases hres with ⟨h0, hkt, hall⟩ | ⟨j, e, w, hkj, hall, herr, hr, hv⟩
            · refine Or.inl ⟨h0, by omega, ?_⟩
              simp only [page_in_all, hp]
              exact hall
            · refine Or.inr ⟨j + 1, e, w, by omega, ?_, ?_, hr, hv⟩
              · simp only [page_in_all, hp]
                exact hall
              · have : f_offset + (j + 1) = f_offset + 1 + j := by omega
                rw [this]
                exact herr

/-- C19: `read_file_pages` calls `page_in` for `k` consecutive offsets
`pfn_start, pfn_start + 1, ...`, each once and in ascending order, all of them
inside `[pfn_start, pfn_end)`; either every offset of the range has been paged
in and it returns 0, or the last of the `k` calls is the first that failed and
it returns the code of that failure, no later offset being paged in.  It
returns 0 exactly when `page_in` succeeds for every offset of the range; for
the empty range it calls nothing and returns 0. -/
theorem read_file_pages_stops_at_first_failure (page_in : vm_object → Nat → PageIn)
    (vmo : vm_object) (pfn_start pfn_end : Nat) :
    (∃ k, k ≤ pfn_end - pfn_start
        ∧ (read_file_pages page_in vmo pfn_start pfn_end).2.1 = List.range' pfn_start k
        ∧ (((read_file_pages page_in vmo pfn_start pfn_end).2.2 = 0
              ∧ k = pfn_end - pfn_start
              ∧ page_in_all page_in (pfn_end - pfn_start) pfn_start vmo
                  = some (read_file_pages page_in vmo pfn_start pfn_end).1)
            ∨ (∃ j e v, k = j + 1 ∧ page_in_all page_in j pfn_start vmo = some v
                ∧ page_in v (pfn_start + j) = .error e
                ∧ (read_file_pages page_in vmo pfn_start pfn_end).2.2 = Int.negSucc e
                ∧ (read_file_pages page_in vmo pfn_start pfn_end).1 = v)))
      ∧ ((read_file_pages page_in vmo pfn_start pfn_end).2.2 = 0
          ↔ ∃ v, page_in_all page_in (pfn_end - pfn_start) pfn_start vmo = some v)
      ∧ (pfn_end ≤ pfn_start → read_file_pages page_in vmo pfn_start pfn_end = (vmo, [], 0)) := by
  obtain ⟨k, hk, hlog, hres⟩ :=
    read_file_pages_loop_spec page_in (pfn_end - pfn_start) pfn_start vmo []
  refine ⟨⟨k, hk, by simpa [read_file_pages] using hlog, hres⟩, ?_, ?_⟩
  · constructor
    · intro h0
      rcases hres with ⟨_, _, hall⟩ | ⟨j, e, w, _, _, _, hr, _⟩
      · exact ⟨_, hall⟩
      · have : (read_file_pages page_in vmo pfn_start pfn_end).2.2 = Int.negSucc e := hr
        rw [this] at h0
        exact absurd h0 (by simp)
    · rintro ⟨v, hv⟩
      rcases hres with ⟨h0, _, _⟩ | ⟨j, e, w, hkj, hall, herr, _, _⟩
      · exact h0
      · exfalso
        obtain ⟨m, hm⟩ : ∃ m, pfn_end - pfn_start = j + (1 + m) := ⟨pfn_end - pfn_start - (j + 1), by omega⟩
        rw [hm, page_in_all_add, hall] at hv
        simp only [Option.some_bind] at hv
        have h1 : 1 + m = m + 1 := by omega
        rw [h1] at hv
        simp [page_in_all, herr] at hv
  · intro hle
    have : pfn_end - pfn_start = 0 := by omega
    simp [read_file_pages, this, read_file_pages_loop]

/-- An instance of the loop: `page_in` fails at offset 2 with the code -5, the
range is [0, 5); pages 0, 1 and 2 are requested, pages 0 and 1 are cached and
the call returns -5. -/
theorem read_file_pages_fails_at_third_page :
    ∃ v, read_file_pages (page_in_failing_at 2 4) (vmo_of_offsets []) 0 5 = (v, [0, 1, 2], -5)
      ∧ cache_offsets v = [0, 1] := by
  refine ⟨_, rfl, rfl⟩

/-- The offsets `read_file_pages` pages in lie inside the range it is given. -/
theorem read_file_pages_log_in_range (page_in : vm_object → Nat → PageIn) (vmo : vm_object)
    (pfn_start pfn_end : Nat) :
    ∀ p ∈ (read_file_pages page_in vmo pfn_start pfn_end).2.1, pfn_start ≤ p ∧ p < pfn_end := by
  obtain ⟨k, hk, hlog, _⟩ :=
    read_file_pages_loop_spec page_in (pfn_end - pfn_start) pfn_start vmo []
  intro p hp
  have hlog' : (read_file_pages page_in vmo pfn_start pfn_end).2.1
      = List.range' pfn_start k := by simpa [read_file_pages] using hlog
  rw [hlog', List.mem_range'_1] at hp
  omega

/-- The page range of `sys_read` starts at the page of the cursor and ends at
or before the last whole page of the file. -/
theorem sys_read_range_clipped (cursor count length : Nat) :
    (sys_read_range cursor count length).1 = __pfn cursor
      ∧ (sys_read_range cursor count length).2 ≤ __pfn length := by
  refine ⟨rfl, ?_⟩
  simp only [sys_read_range]
  split
  · exact le_refl _
  · omega

/-- What `sys_read` adds to the log of `page_in` calls is the log of its call
of `read_file_pages`. -/
theorem sys_read_pagein_calls (page_in : vm_object → Nat → PageIn) (s : State)
    (sender fd : Int) (n ti fa : Nat) (d : file_descriptor) (f : vm_file)
    (htask : find_task s.tasks sender = some ti)
    (hfd : ¬ (fd < 0 ∨ fd > (TASK_FILES_MAX : Int)))
    (hbound : bound_file s ti fd = some (d, fa, f)) :
    (sys_read page_in s sender fd n).state.pagein_calls
      = s.pagein_calls ++ (read_file_pages page_in f.vm_obj
          (sys_read_range d.cursor n f.length).1 (sys_read_range d.cursor n f.length).2).2.1 := by
  unfold sys_read
  simp only [htask, hfd, if_false, hbound]
  split
  · rfl
  · split
    · rfl
    · rfl
    · split <;> rfl

/-- C15: for a known sender and a descriptor bound to a file of tracked length
L with the cursor at c, whatever the count and whatever way `sys_read` ends,
every page offset p it requests from `page_in` has pfn(c) <= p and
p * PAGE_SIZE < L. -/
theorem sys_read_pages_in_within_length (page_in : vm_object → Nat → PageIn) (s : State)
    (sender fd : Int) (n ti fa : Nat) (d : file_descriptor) (f : vm_file)
    (htask : find_task s.tasks sender = some ti)
    (hbound : bound_file s ti fd = some (d, fa, f)) :
    ∃ log, (sys_read page_in s sender fd n).state.pagein_calls = s.pagein_calls ++ log
      ∧ ∀ p ∈ log, __pfn d.cursor ≤ p ∧ p * PAGE_SIZE < f.length := by
  by_cases hfd : fd < 0 ∨ fd > (TASK_FILES_MAX : Int)
  · refine ⟨[], ?_, fun p hp => absurd hp (List.not_mem_nil p)⟩
    simp [sys_read, htask, hfd, Outcome.state]
  · refine ⟨_, sys_read_pagein_calls page_in s sender fd n ti fa d f htask hfd hbound, ?_⟩
    intro p hp
    obtain ⟨h1, h2⟩ := read_file_pages_log_in_range page_in f.vm_obj _ _ p hp
    obtain ⟨hs, he⟩ := sys_read_range_clipped d.cursor n f.length
    rw [hs] at h1
    refine ⟨h1, ?_⟩
    have hlt : p + 1 ≤ f.length / PAGE_SIZE := by
      have : (sys_read_range d.cursor n f.length).2 ≤ f.length / PAGE_SIZE := he
      omega
    have hmul : (p + 1) * PAGE_SIZE ≤ f.length :=
      (Nat.le_div_iff_mul_le (by decide)).mp hlt
    have hexp : (p + 1) * PAGE_SIZE = p * PAGE_SIZE + PAGE_SIZE := by ring
    have hpos : 0 < PAGE_SIZE := by decide
    omega

/-- Witness of C15: the file has 8192 bytes, the cursor is at 0 and 20000 bytes
are requested; pages 0 and 1 are requested and no other. -/
theorem sys_read_pages_in_within_length_witness :
    (sys_read resident_page_in (one_file_state 8192 0 []) 5 0 20000).state.pagein_calls = [0, 1]
      ∧ ∃ log, (sys_read resident_page_in (one_file_state 8192 0 []) 5 0 20000).state.pagein_calls
          = (one_file_state 8192 0 []).pagein_calls ++ log
        ∧ ∀ p ∈ log, __pfn (file_descriptor.mk 7 0 (some 0)).cursor ≤ p
            ∧ p * PAGE_SIZE < (vm_file.mk VM_FILE_VFS 7 8192 (vmo_of_offsets [])).length :=
  ⟨rfl, sys_read_pages_in_within_length resident_page_in (one_file_state 8192 0 []) 5 0 20000 0 0
    { vnum := 7, cursor := 0, vmfile := some 0 }
    { type := VM_FILE_VFS, vnum := 7, length := 8192, vm_obj := vmo_of_offsets [] } rfl rfl⟩

/-! ### The scan of `insert_page_olist` -/

/-- The two embeddings of the scan agree. -/
theorem insert_page_scan_eq_exit (this : page) :
    ∀ (l pre : List page),
      insert_page_scan this pre l = (insert_page_scan_exit this pre l).result := by
  intro l
  induction l with
  | nil => intro pre; rfl
  | cons b l ih =>
      intro pre
      cases l with
      | nil =>
          simp only [insert_page_scan, insert_page_scan_exit]
          split
          · rfl
          · split <;> rfl
      | cons a l =>
          simp only [insert_page_scan, insert_page_scan_exit]
          split
          · rfl
          · split
            · rfl
            · split
              · rfl
              · exact ih (pre ++ [b])

/-- On a cache that is not empty the scan never runs off the end of the list:
the trailing `BUG()` is not reached. -/
theorem insert_page_scan_exit_in_loop (this : page) :
    ∀ (l pre : List page), l ≠ [] → insert_page_scan_exit this pre l ≠ .bug_after_loop := by
  intro l
  induction l with
  | nil => intro pre h; exact absurd rfl h
  | cons b l ih =>
      intro pre _
      cases l with
      | nil =>
          simp only [insert_page_scan_exit]
          split
          · simp
          · split <;> simp
      | cons a l =>
          simp only [insert_page_scan_exit]
          split
          · simp
          · split
            · simp
            · split
              · simp
              · exact ih (pre ++ [b]) (by simp)

/-- A scan that ends in a fatal assertion has met an entry with the new offset. -/
theorem insert_page_scan_none_mem (this : page) :
    ∀ (l pre : List page), l ≠ [] → insert_page_scan this pre l = none →
      this.offset ∈ l.map page.offset := by
  intro l
  induction l with
  | nil => intro pre h; exact absurd rfl h
  | cons b l ih =>
      intro pre _ h
      cases l with
      | nil =>
          simp only [insert_page_scan] at h
          split at h
          · exact absurd h (by simp)
          · split at h
            · exact absurd h (by simp)
            · have hb : this.offset = b.offset := by omega
              simp [hb]
      | cons a l =>
          simp only [insert_page_scan] at h
          split at h
          · exact absurd h (by simp)
          · split at h
            · rename_i hb
              simp [hb]
            · split at h
              · rename_i ha
                simp [ha]
              · have hm := ih (pre ++ [b]) (by simp) h
                exact List.mem_cons_of_mem _ hm

/-- On a strictly ascending cache, a new offset that an entry carries already
ends the scan in a fatal assertion. -/
theorem insert_page_scan_mem_none (this : page) :
    ∀ (l pre : List page), strictly_ascending (l.map page.offset) →
      this.offset ∈ l.map page.offset → insert_page_scan this pre l = none := by
  intro l
  induction l with
  | nil => intro pre _ h; simp at h
  | cons b l ih =>
      intro pre hasc hmem
      cases l with
      | nil =>
          have hb : this.offset = b.offset := by simpa using hmem
          simp [insert_page_scan, hb]
      | cons a l =>
          unfold strictly_ascending at hasc
          simp only [List.map_cons, List.pairwise_cons, List.mem_cons, List.mem_map,
            forall_eq_or_imp, forall_exists_index, and_imp, forall_apply_eq_imp_iff₂] at hasc
          obtain ⟨⟨hba, hbl⟩, hal, hl⟩ := hasc
          have hasc' : strictly_ascending ((a :: l).map page.offset) := by
            unfold strictly_ascending
            simp only [List.map_cons, List.pairwise_cons, List.mem_map, forall_exists_index,
              and_imp, forall_apply_eq_imp_iff₂]
            exact ⟨hal, hl⟩
          simp only [List.map_cons, List.mem_cons, List.mem_map] at hmem
          have hnot : ¬ (b.offset < this.offset ∧ a.offset > this.offset) := by
            rintro ⟨h1, h2⟩
            rcases hmem with h | h | ⟨x, hx, hxo⟩
            · omega
            · omega
            · have hax := hal x hx
              omega
          simp only [insert_page_scan, hnot, if_false]
          split
          · rfl
          · rename_i hb
            split
            · rfl
            · rename_i ha
              apply ih (pre ++ [b]) hasc'
              simp only [List.map_cons, List.mem_cons, List.mem_map]
              rcases hmem with h | h | h
              · exact absurd h hb
              · exact Or.inl h
              · exact Or.inr h

/-- A scan that links the page yields the entries passed, the entries left and
the new page, and nothing else. -/
theorem insert_page_scan_some_perm (this : page) :
    ∀ (l pre l' : List page), insert_page_scan this pre l = some l' →
      l'.Perm (this :: (pre ++ l)) := by
  intro l
  induction l with
  | nil => intro pre l' h; simp [insert_page_scan] at h
  | cons b l ih =>
      intro pre l' h
      cases l with
      | nil =>
          simp only [insert_page_scan] at h
          split at h
          · simp only [Option.some.injEq] at h
            subst h
            exact List.perm_middle
          · split at h
            · simp only [Option.some.injEq] at h
              subst h
              have hl : list_add_node this pre b [] = (pre ++ [b]) ++ this :: [] := by
                simp [list_add_node]
              rw [hl]
              simpa using (List.perm_middle : ((pre ++ [b]) ++ this :: []).Perm _)
            · exact absurd h (by simp)
      | cons a l =>
          simp only [insert_page_scan] at h
          split at h
          · simp only [Option.some.injEq] at h
            subst h
            exact List.perm_middle
          · split at h
            · exact absurd h (by simp)
            · split at h
              · exact absurd h (by simp)
              · have hp := ih (pre ++ [b]) l' h
                simpa using hp

/-- C18: on a cache with strictly ascending offsets, `insert_page_olist` stops
in a fatal assertion exactly when the offset of the new page is the offset of
an entry of the cache; for every other offset it returns 0 and the cache then
holds the old entries and the new page, each once; it never leaves the
objects it is handed; and on a cache that is not empty the scan ends inside the
loop, so the trailing `BUG()` is not reached. -/
theorem insert_page_olist_fatal_iff_duplicate (this : page) (vmo : vm_object)
    (hasc : strictly_ascending (cache_offsets vmo)) :
    ((∃ v, insert_page_olist this vmo = .fatal v) ↔ this.offset ∈ cache_offsets vmo)
      ∧ (this.offset ∉ cache_offsets vmo →
          ∃ l, insert_page_olist this vmo = .ret { vmo with page_cache := l } 0
            ∧ l.Perm (this :: vmo.page_cache)
            ∧ (l.map page.offset).Perm (this.offset :: cache_offsets vmo))
      ∧ (∀ v, insert_page_olist this vmo ≠ .wild v)
      ∧ (vmo.page_cache ≠ [] →
          insert_page_scan_exit this [] vmo.page_cache ≠ .bug_after_loop
            ∧ insert_page_scan this [] vmo.page_cache
                = (insert_page_scan_exit this [] vmo.page_cache).result) := by
  by_cases hempty : vmo.page_cache = []
  · refine ⟨?_, ?_, ?_, fun h => absurd hempty h⟩
    · simp [insert_page_olist, hempty, cache_offsets]
    · intro _
      refine ⟨[this], ?_, ?_, ?_⟩
      · simp [insert_page_olist, hempty, list_add_tail_head]
      · simp [hempty]
      · simp [hempty, cache_offsets]
    · intro v
      simp [insert_page_olist, hempty]
  · have hnone : insert_page_scan this [] vmo.page_cache = none
        ↔ this.offset ∈ cache_offsets vmo :=
      ⟨insert_page_scan_none_mem this vmo.page_cache [] hempty,
       insert_page_scan_mem_none this vmo.page_cache [] hasc⟩
    refine ⟨?_, ?_, ?_, fun _ => ⟨insert_page_scan_exit_in_loop this _ [] hempty,
      insert_page_scan_eq_exit this _ []⟩⟩
    · rw [← hnone]
      cases hs : insert_page_scan this [] vmo.page_cache with
      | none => simp [insert_page_olist, hempty, hs]
      | some l => simp [insert_page_olist, hempty, hs]
    · intro hmem
      cases hs : insert_page_scan this [] vmo.page_cache with
      | none => exact absurd (hnone.mp hs) hmem
      | some l =>
          have hperm := insert_page_scan_some_perm this vmo.page_cache [] l hs
          simp only [List.nil_append] at hperm
          refine ⟨l, by simp [insert_page_olist, hempty, hs], hperm, ?_⟩
          simpa [cache_offsets] using hperm.map page.offset
    · intro v
      cases hs : insert_page_scan this [] vmo.page_cache with
      | none => simp [insert_page_olist, hempty, hs]
      | some l => simp [insert_page_olist, hempty, hs]

/-- Witness of C18: the cache holds the offsets 1, 5, 9; inserting the offset 5
is fatal, inserting the offset 7 returns 0 with one entry more. -/
theorem insert_page_olist_fatal_iff_duplicate_witness :
    strictly_ascending (cache_offsets (vmo_of_offsets [1, 5, 9]))
      ∧ insert_page_olist (mk_page 0 none 5) (vmo_of_offsets [1, 5, 9])
          = .fatal (vmo_of_offsets [1, 5, 9])
      ∧ ((∃ v, insert_page_olist (mk_page 0 none 5) (vmo_of_offsets [1, 5, 9]) = .fatal v)
          ↔ (mk_page 0 none 5).offset ∈ cache_offsets (vmo_of_offsets [1, 5, 9]))
      ∧ ∃ l, insert_page_olist (mk_page 0 none 7) (vmo_of_offsets [1, 5, 9])
            = .ret { vmo_of_offsets [1, 5, 9] with page_cache := l } 0
          ∧ l.Perm (mk_page 0 none 7 :: (vmo_of_offsets [1, 5, 9]).page_cache)
          ∧ (l.map page.offset).Perm
              ((mk_page 0 none 7).offset :: cache_offsets (vmo_of_offsets [1, 5, 9])) :=
  ⟨by decide, rfl,
   (insert_page_olist_fatal_iff_duplicate (mk_page 0 none 5) (vmo_of_offsets [1, 5, 9])
      (by decide)).1,
   (insert_page_olist_fatal_iff_duplicate (mk_page 0 none 7) (vmo_of_offsets [1, 5, 9])
      (by decide)).2.1 (by decide)⟩

/-! ### The page ranges of `sys_write` -/

/-- C20 (counterexample): with the cursor 0, the count 1 and the tracked length
2^32 - 1, rounding the length up to a page boundary overflows to 0, so
`sys_write` takes page 0 for a new page: the new range is [0, 1) although
ceil(L / PAGE_SIZE) = 1048576. -/
theorem sys_write_ranges_length_overflow :
    0 + 1 < WORD
      ∧ sys_write_ranges 0 1 4294967295 = ((0, 1), (0, 0), (0, 1))
      ∧ (4294967295 + PAGE_SIZE - 1) / PAGE_SIZE = 1048576
      ∧ ¬ (1048576 ≤ 0) := by
  refine ⟨by decide, by decide, by decide, by decide⟩

/-- C20 (amended): for every cursor c, count n and tracked length L with c + n
not overflowing and L <= 2^32 - PAGE_SIZE (so that rounding L up does not
overflow), the existing range and the new range that `sys_write` computes are
disjoint, their union is the requested range
[pfn(c), pfn(page_align_up(c + n))), every page of the existing range is below
ceil(L / PAGE_SIZE) and every page of the new range is at or above it. -/
theorem sys_write_ranges_partition (c n L : Nat) (hcn : c + n < WORD)
    (hL : L + PAGE_SIZE - 1 < WORD) :
    ∃ fs fe ns ne,
      sys_write_ranges c n L = ((__pfn c, __pfn (page_align_up (c + n))), (fs, fe), (ns, ne))
        ∧ ∀ p, (((fs ≤ p ∧ p < fe) ∨ (ns ≤ p ∧ p < ne))
                  ↔ (__pfn c ≤ p ∧ p < __pfn (page_align_up (c + n))))
            ∧ ¬ ((fs ≤ p ∧ p < fe) ∧ (ns ≤ p ∧ p < ne))
            ∧ ((fs ≤ p ∧ p < fe) → p < (L + PAGE_SIZE - 1) / PAGE_SIZE)
            ∧ ((ns ≤ p ∧ p < ne) → (L + PAGE_SIZE - 1) / PAGE_SIZE ≤ p) := by
  have hmod : (c + n) % WORD = c + n := Nat.mod_eq_of_lt hcn
  have hLm : (L + (PAGE_SIZE - 1)) % WORD = L + PAGE_SIZE - 1 := by
    have h1 : L + (PAGE_SIZE - 1) = L + PAGE_SIZE - 1 := by
      simp only [PAGE_SIZE]
      omega
    rw [h1]
    exact Nat.mod_eq_of_lt hL
  have hF : __pfn (page_align_up L) = (L + PAGE_SIZE - 1) / PAGE_SIZE := by
    simp only [__pfn, page_align_up, hLm]
    exact Nat.mul_div_cancel _ (by decide)
  unfold sys_write_ranges
  simp only [hmod]
  rw [hF]
  generalize __pfn c = ws
  generalize __pfn (page_align_up (c + n)) = we
  generalize (L + PAGE_SIZE - 1) / PAGE_SIZE = F
  by_cases h1 : ws < F
  · by_cases h2 : we < F
    · refine ⟨ws, we, 0, 0, by simp [h1, h2], ?_⟩
      intro p
      omega
    · refine ⟨ws, F, F, we, by simp [h1, h2], ?_⟩
      intro p
      omega
  · refine ⟨0, 0, ws, we, by simp [h1], ?_⟩
    intro p
    omega

/-- Witness of C20 (amended): the cursor is 5000, the count 10000 and the
length 8192; pages 1 .. 3 are requested, page 1 exists and pages 2 and 3 are
new. -/
theorem sys_write_ranges_partition_witness :
    sys_write_ranges 5000 10000 8192 = ((1, 4), (1, 2), (2, 4))
      ∧ ∃ fs fe ns ne,
        sys_write_ranges 5000 10000 8192
            = ((__pfn 5000, __pfn (page_align_up (5000 + 10000))), (fs, fe), (ns, ne))
          ∧ ∀ p, (((fs ≤ p ∧ p < fe) ∨ (ns ≤ p ∧ p < ne))
                    ↔ (__pfn 5000 ≤ p ∧ p < __pfn (page_align_up (5000 + 10000))))
              ∧ ¬ ((fs ≤ p ∧ p < fe) ∧ (ns ≤ p ∧ p < ne))
              ∧ ((fs ≤ p ∧ p < fe) → p < (8192 + PAGE_SIZE - 1) / PAGE_SIZE)
              ∧ ((ns ≤ p ∧ p < ne) → (8192 + PAGE_SIZE - 1) / PAGE_SIZE ≤ p) :=
  ⟨by decide, sys_write_ranges_partition 5000 10000 8192 (by decide) (by decide)⟩

end Codezero
